import Mathlib

/-
Verification development for the director task-orchestration engine.

The subtask Execution Loop (`executeSubtask`, `getNextStep`, `isRepeatingAction`,
`runStagehand` dispatch) is embedded from the worker module.  The Decision
Oracle (the LLM call inside `getNextStep`) and the Actuator (the Stagehand
browser calls inside `runStagehand`) are external collaborators; they are
modelled as behaviour functions indexed by call number, each call returning
either a payload or a fault (a rejected promise).  The loop state carries two
instrumentation-only fields, `trace` (the sequence of actuator invocations,
i.e. the arguments of every `runStagehand` call) and `pauses` (the number of
synthetic re-orientation pauses injected by loop detection); neither is read
by the embedded control flow.
-/

namespace Director

/-- The closed tool vocabulary of `BrowserStep.tool` in the worker module. -/
inductive Tool
  | GOTO | ACT | EXTRACT | OBSERVE | CLOSE | WAIT | NAVBACK | SCREENSHOT | DONE | FAIL
deriving DecidableEq, Repr

def toolName : Tool → String
  | .GOTO => "GOTO"
  | .ACT => "ACT"
  | .EXTRACT => "EXTRACT"
  | .OBSERVE => "OBSERVE"
  | .CLOSE => "CLOSE"
  | .WAIT => "WAIT"
  | .NAVBACK => "NAVBACK"
  | .SCREENSHOT => "SCREENSHOT"
  | .DONE => "DONE"
  | .FAIL => "FAIL"

/-- `BrowserStep` of the worker module (`stepNumber` is optional and unused). -/
structure BrowserStep where
  text : String
  reasoning : String
  tool : Tool
  instruction : String
deriving DecidableEq, Repr

/-- `WorkerResult.status`. -/
inductive Status
  | DONE | FAILED
deriving DecidableEq, Repr

/-- `WorkerResult` of the worker module.  `extraction` and `error` are `none`
when the corresponding field is absent from the returned object literal. -/
structure WorkerResult where
  status : Status
  steps : List BrowserStep
  extraction : Option String
  error : Option String
  retryCount : Nat
deriving DecidableEq, Repr

/-! ### String helpers

JavaScript `a.toLowerCase().includes(b)` on the step text/reasoning, modelled
on the character lists of the strings. -/

def leadMatch : List Char → List Char → Bool
  | [], _ => true
  | _ :: _, [] => false
  | p :: ps, h :: hs => p == h && leadMatch ps hs

def hasSub (pat : List Char) : List Char → Bool
  | [] => pat.isEmpty
  | h :: hs => leadMatch pat (h :: hs) || hasSub pat hs

/-- `haystack.toLowerCase().includes(pat)` with `pat` already lower-case. -/
def containsLower (hay pat : String) : Bool :=
  hasSub pat.data (hay.data.map Char.toLower)

/-- The fixed completion phrases tested (identically) in `executeSubtask` and
`getNextStep`: each phrase is searched in the lower-cased `text` and in the
lower-cased `reasoning` of the step. -/
def hasCompletionLanguage (st : BrowserStep) : Bool :=
  containsLower st.text "task complete" ||
  containsLower st.text "goal achieved" ||
  containsLower st.text "subtask complete" ||
  containsLower st.reasoning "task complete" ||
  containsLower st.reasoning "goal achieved" ||
  containsLower st.reasoning "subtask complete"

/-! ### Decision Oracle and Actuator behaviours -/

/-- One raw response of the Decision Oracle (the `generateObject` call inside
`getNextStep`): either a structured step or a fault. -/
inductive OracleOutcome
  | ok (st : BrowserStep)
  | fault
deriving DecidableEq, Repr

/-- One response of the Actuator (a `runStagehand` round-trip): a payload, or
a raised fault carrying the fault's message.  Payloads are modelled as
strings; the loop only tests a payload for JavaScript truthiness, which for
the string model is non-emptiness. -/
inductive ActOutcome
  | ok (payload : String)
  | fault (msg : String)
deriving DecidableEq, Repr

/-- Parameters of one `executeSubtask` invocation: the scripted behaviours of
the two external collaborators (indexed by call count), the `maxRetries`
parameter (source default 3) and the optional carried-over extraction. -/
structure LoopCfg where
  oracle : Nat → OracleOutcome
  act : Nat → ActOutcome
  maxRetries : Nat := 3
  previousExtraction : Option String := none

/-- The fallback step returned by `getNextStep` when the oracle call faults. -/
def fallbackStep : BrowserStep :=
  { text := "Failed to determine next step, taking a screenshot to reassess"
    reasoning := "Error occurred in step generation, need to capture current state to recover"
    tool := .SCREENSHOT
    instruction := "" }

/-- The synthetic `DONE` step `getNextStep` substitutes when the oracle signals
completion in prose (`text`/`reasoning`) without using the `DONE` tool. -/
def convertToDone (st : BrowserStep) : BrowserStep :=
  { text := "Subtask completed successfully"
    reasoning := "The goal for this subtask has been achieved"
    tool := .DONE
    instruction := "Subtask complete: " ++ st.text }

/-- `getNextStep` of the worker module, as a function of the raw oracle
response: a faulting oracle call is caught and replaced by the screenshot
fallback; a step carrying completion language whose tool is not `DONE` is
converted into a synthetic `DONE` step; otherwise the oracle's step is
returned unchanged.  (The prompt construction only feeds the oracle and is
absorbed into the arbitrariness of the oracle behaviour.) -/
def getNextStep (o : OracleOutcome) : BrowserStep :=
  match o with
  | .fault => fallbackStep
  | .ok st =>
    if st.tool ≠ Tool.DONE ∧ hasCompletionLanguage st then convertToDone st else st

/-! ### Execution-loop state -/

/-- The local mutable state of one `executeSubtask` invocation.  `oracleIdx`
and `actIdx` count the oracle/actuator calls made so far; `trace` and
`pauses` are instrumentation only (never read by the control flow);
`isSubtaskComplete` is the `while` flag of the source. -/
structure LoopState where
  steps : List BrowserStep
  extraction : Option String
  retryCount : Nat
  recentActionHistory : List (Tool × String)
  currentScreenshot : Option String
  currentUrl : String
  previousExtraction : Option String
  oracleIdx : Nat
  actIdx : Nat
  isSubtaskComplete : Bool
  trace : List (Tool × String)
  pauses : Nat
deriving DecidableEq, Repr

def MAX_STEPS : Nat := 15
def MAX_HISTORY : Nat := 5
def MAX_DUPLICATES : Nat := 2

/-- The duplicate count computed by `isRepeatingAction`: occurrences of the
step's (tool, instruction) pair in the bounded recent-action history. -/
def dupCount (hist : List (Tool × String)) (st : BrowserStep) : Nat :=
  (hist.filter (fun q => q.1 == st.tool && q.2 == st.instruction)).length

/-- `isRepeatingAction` of the worker module.  Returns the repetition verdict
together with the updated history (the source mutates `recentActionHistory`
in place: it counts duplicates, then pushes the incoming pair, then trims the
history to the last `MAX_HISTORY` entries). -/
def isRepeatingAction (hist : List (Tool × String)) (st : BrowserStep) :
    Bool × List (Tool × String) :=
  let dup := dupCount hist st
  let h1 := hist ++ [(st.tool, st.instruction)]
  (decide (MAX_DUPLICATES ≤ dup), if MAX_HISTORY < h1.length then h1.drop 1 else h1)

/-- One actuator round-trip (`executeStep`/`runStagehand`): consumes the next
actuator behaviour entry and records the invocation in the trace. -/
def actCall (cfg : LoopCfg) (s : LoopState) (method : Tool) (instr : String) :
    ActOutcome × LoopState :=
  (cfg.act s.actIdx,
   { s with actIdx := s.actIdx + 1, trace := s.trace ++ [(method, instr)] })

/-- Best-effort screenshot refresh: on success the snapshot is replaced, on a
fault the previous snapshot is kept (the fault is caught and only logged). -/
def refreshScreenshot (cfg : LoopCfg) (s : LoopState) : LoopState :=
  let call := actCall cfg s .SCREENSHOT ""
  match call.1 with
  | .ok p => { call.2 with currentScreenshot := some p }
  | .fault _ => call.2

/-- Best-effort current-URL refresh after `GOTO`/`NAVBACK` (an `EXTRACT` of
`document.location.href`); on a fault the previous value is kept.  The
payload is a string, so the source's string branch applies. -/
def refreshUrl (cfg : LoopCfg) (s : LoopState) : LoopState :=
  let call := actCall cfg s .EXTRACT "return document.location.href"
  match call.1 with
  | .ok u => { call.2 with currentUrl := u }
  | .fault _ => call.2

/-- The synthetic `WAIT` step pushed when loop detection fires without
exhausting the retries. -/
def waitMarkerStep : BrowserStep :=
  { text := "Detected repeated action"
    reasoning := "The same action was attempted multiple times without progress"
    tool := .WAIT
    instruction := "Pausing to reassess strategy" }

/-- The explicit `DONE` step appended on implicit completion inside the loop. -/
def completionDoneStep : BrowserStep :=
  { text := "Marking subtask as complete"
    reasoning := "Based on completion signals in previous step"
    tool := .DONE
    instruction := "Subtask successfully completed" }

/-- The synthetic `DONE` step appended when the oracle asks for `CLOSE`. -/
def closeDoneStep : BrowserStep :=
  { text := "Marking subtask as complete"
    reasoning := "Based on CLOSE request from agent"
    tool := .DONE
    instruction := "Subtask successfully completed" }

/-- The explicit `FAIL` step appended when actuator faults exhaust the
retries; its instruction is the fault's message. -/
def failMarkerStep (m : String) : BrowserStep :=
  { text := "Marking subtask as failed"
    reasoning := "Exceeded maximum retry attempts"
    tool := .FAIL
    instruction := m }

/-- The final `DONE` step of the code path after the `while` loop
("Reached the end of execution successfully"). -/
def finalDoneStep : BrowserStep :=
  { text := "Marking subtask as complete"
    reasoning := "Reached the end of execution successfully"
    tool := .DONE
    instruction := "Subtask successfully completed" }

def maxStepsError : String := "Exceeded maximum number of steps (15)"

def repeatFailMsg (t : Tool) (n : Nat) : String :=
  "Failed due to repeating the same action (" ++ toolName t ++ ") " ++ toString n ++ " times"

/-- Outcome of one iteration of the `while` body: a `return` from inside the
loop (carrying the returned result and the state at that moment), or a fall
through to the next iteration. -/
inductive BodyOut
  | halt (r : WorkerResult) (s : LoopState)
  | next (s : LoopState)
deriving DecidableEq, Repr

/-- Post-processing of a successful actuator execution (worker module,
success path of the step `try` block): capture a truthy `EXTRACT` result as
the carried extraction, refresh the tracked URL after `GOTO`/`NAVBACK`, and
refresh the snapshot after every tool except `SCREENSHOT` (whose own payload
becomes the snapshot). -/
def captureExtraction (nx : BrowserStep) (p : String) (sc : LoopState) : LoopState :=
  if nx.tool = Tool.EXTRACT ∧ p ≠ "" then
    { sc with extraction := some p, previousExtraction := some p }
  else sc

def trackUrl (cfg : LoopCfg) (nx : BrowserStep) (sc : LoopState) : LoopState :=
  if nx.tool = Tool.GOTO ∨ nx.tool = Tool.NAVBACK then refreshUrl cfg sc else sc

def onActOk (cfg : LoopCfg) (nx : BrowserStep) (p : String) (sc : LoopState) : LoopState :=
  if nx.tool ≠ Tool.SCREENSHOT then
    refreshScreenshot cfg (trackUrl cfg nx (captureExtraction nx p sc))
  else { trackUrl cfg nx (captureExtraction nx p sc) with currentScreenshot := some p }

/-- The `catch` handler of the loop body: on an actuator fault, increment the
retry counter; on exhaustion append an explicit `FAIL` step and return
`FAILED` with the fault's message; otherwise pause, best-effort refresh the
snapshot, and fall through to the next iteration. -/
def onActFault (cfg : LoopCfg) (m : String) (sc : LoopState) : BodyOut :=
  if cfg.maxRetries ≤ sc.retryCount + 1 then
    .halt ⟨.FAILED, sc.steps ++ [failMarkerStep m], none, some m, sc.retryCount + 1⟩
      { sc with
        steps := sc.steps ++ [failMarkerStep m]
        retryCount := sc.retryCount + 1 }
  else
    .next (refreshScreenshot cfg { sc with retryCount := sc.retryCount + 1 })

/-- Execute the decided step via the actuator (`executeStep`), dispatching on
the outcome of the call. -/
def execAction (cfg : LoopCfg) (nx : BrowserStep) (s2 : LoopState) : BodyOut :=
  match actCall cfg s2 nx.tool nx.instruction with
  | (.fault m, sc) => onActFault cfg m sc
  | (.ok p, sc) => .next (onActOk cfg nx p sc)

/-- The detected-repetition branch: increment the retry counter; on
exhaustion return `FAILED` citing the repeated action; otherwise push the
synthetic `WAIT` step, best-effort refresh the snapshot, pause, and request
a new decision. -/
def onRepeat (cfg : LoopCfg) (nx : BrowserStep) (s1 : LoopState) : BodyOut :=
  if cfg.maxRetries ≤ s1.retryCount + 1 then
    .halt ⟨.FAILED, s1.steps, none, some (repeatFailMsg nx.tool (s1.retryCount + 1)),
        s1.retryCount + 1⟩
      { s1 with retryCount := s1.retryCount + 1 }
  else
    .next (refreshScreenshot cfg
      { s1 with
        retryCount := s1.retryCount + 1
        steps := s1.steps ++ [waitMarkerStep]
        pauses := s1.pauses + 1 })

/-- After loop detection has not fired: append the step, check the implicit
completion phrases, and either execute the action or intercept `CLOSE` by
appending a synthetic `DONE` step. -/
def afterLoopCheck (cfg : LoopCfg) (nx : BrowserStep) (s1 : LoopState) : BodyOut :=
  if hasCompletionLanguage nx then
    .halt ⟨.DONE, s1.steps ++ [nx] ++ [completionDoneStep], s1.extraction, none, s1.retryCount⟩
      { s1 with steps := s1.steps ++ [nx] ++ [completionDoneStep] }
  else if nx.tool ≠ Tool.CLOSE then
    execAction cfg nx { s1 with steps := s1.steps ++ [nx] }
  else
    .halt ⟨.DONE, s1.steps ++ [nx] ++ [closeDoneStep], s1.extraction, none, s1.retryCount⟩
      { s1 with steps := s1.steps ++ [nx] ++ [closeDoneStep] }

/-- Handling of one decided step: explicit `DONE`/`FAIL` interception, then
loop detection (`isRepeatingAction`, whose history side effect always
applies), then the post-check path. -/
def handleStep (cfg : LoopCfg) (nx : BrowserStep) (s0 : LoopState) : BodyOut :=
  if nx.tool = Tool.DONE then
    .halt ⟨.DONE, s0.steps ++ [nx], s0.extraction, none, s0.retryCount⟩
      { s0 with steps := s0.steps ++ [nx] }
  else if nx.tool = Tool.FAIL then
    .halt ⟨.FAILED, s0.steps ++ [nx], none, some nx.instruction, s0.retryCount⟩
      { s0 with steps := s0.steps ++ [nx] }
  else if (isRepeatingAction s0.recentActionHistory nx).1 then
    onRepeat cfg nx
      { s0 with recentActionHistory := (isRepeatingAction s0.recentActionHistory nx).2 }
  else
    afterLoopCheck cfg nx
      { s0 with recentActionHistory := (isRepeatingAction s0.recentActionHistory nx).2 }

/-- One iteration of the `while (!isSubtaskComplete)` body of
`executeSubtask`: the step-ceiling check (performed before requesting
another decision), then the decision request (`getNextStep`, consuming one
oracle call) and the handling of the decided step. -/
def body (cfg : LoopCfg) (s : LoopState) : BodyOut :=
  if MAX_STEPS ≤ s.steps.length then
    .halt ⟨.FAILED, s.steps, none, some maxStepsError, s.retryCount⟩ s
  else
    handleStep cfg (getNextStep (cfg.oracle s.oracleIdx)) { s with oracleIdx := s.oracleIdx + 1 }

/-- The `while (!isSubtaskComplete)` loop of `executeSubtask`, including the
code path after the loop (the "Reached the end of execution successfully"
`DONE` result, taken only if the flag were ever true).  Returns the result
together with the final loop state (for the instrumentation fields). -/
def loopGo (cfg : LoopCfg) (s : LoopState) : WorkerResult × LoopState :=
  if s.isSubtaskComplete then
    (⟨.DONE, s.steps ++ [finalDoneStep], s.extraction, none, s.retryCount⟩,
     { s with steps := s.steps ++ [finalDoneStep] })
  else
    match hb : body cfg s with
    | .halt r s1 => (r, s1)
    | .next s1 => loopGo cfg s1
termination_by 16 - s.steps.length
decreasing_by
  have hRS : ∀ t : LoopState, (refreshScreenshot cfg t).steps = t.steps := by
    intro t
    unfold refreshScreenshot actCall
    simp only []
    split <;> rfl
  have hRU : ∀ t : LoopState, (refreshUrl cfg t).steps = t.steps := by
    intro t
    unfold refreshUrl actCall
    simp only []
    split <;> rfl
  have hOk : ∀ nx p (t : LoopState), (onActOk cfg nx p t).steps = t.steps := by
    intro nx p t
    have hCE : ∀ u : LoopState, (captureExtraction nx p u).steps = u.steps := by
      intro u
      unfold captureExtraction
      split <;> rfl
    have hTU : ∀ u : LoopState, (trackUrl cfg nx u).steps = u.steps := by
      intro u
      unfold trackUrl
      split
      · rw [hRU]
      · rfl
    unfold onActOk
    split
    · rw [hRS, hTU, hCE]
    · show (trackUrl cfg nx (captureExtraction nx p t)).steps = t.steps
      rw [hTU, hCE]
  have hExec : ∀ nx (t u : LoopState), execAction cfg nx t = BodyOut.next u →
      u.steps = t.steps := by
    intro nx t u h
    unfold execAction actCall at h
    split at h
    · rename_i m sc hpair
      injection hpair with hp1 hp2
      unfold onActFault at h
      split at h
      · exact BodyOut.noConfusion h
      · injection h with h
        subst h
        rw [hRS, ← hp2]
    · rename_i p sc hpair
      injection hpair with hp1 hp2
      injection h with h
      subst h
      rw [hOk, ← hp2]
  have hHS : ∀ nx (t u : LoopState), handleStep cfg nx t = BodyOut.next u →
      u.steps.length = t.steps.length + 1 := by
    intro nx t u h
    unfold handleStep at h
    split at h
    · exact BodyOut.noConfusion h
    · split at h
      · exact BodyOut.noConfusion h
      · split at h
        · unfold onRepeat at h
          split at h
          · exact BodyOut.noConfusion h
          · injection h with h
            subst h
            rw [hRS]
            simp
        · unfold afterLoopCheck at h
          split at h
          · exact BodyOut.noConfusion h
          · split at h
            · have h2 := hExec _ _ _ h
              rw [h2]
              simp
            · exact BodyOut.noConfusion h
  have key : s1.steps.length = s.steps.length + 1 ∧ s.steps.length < 15 := by
    unfold body MAX_STEPS at hb
    split at hb
    · exact BodyOut.noConfusion hb
    · rename_i hceil
      have h2 := hHS _ _ _ hb
      refine ⟨by simpa using h2, by omega⟩
  omega

/-- `loopGo` with the post-loop code path removed: every result is produced by
a `return` inside the loop body.  Used to state that the post-loop path of
the source is unreachable. -/
def loopGoNoPost (cfg : LoopCfg) (s : LoopState) : WorkerResult × LoopState :=
  match hb : body cfg s with
  | .halt r s1 => (r, s1)
  | .next s1 => loopGoNoPost cfg s1
termination_by 16 - s.steps.length
decreasing_by
  have hRS : ∀ t : LoopState, (refreshScreenshot cfg t).steps = t.steps := by
    intro t
    unfold refreshScreenshot actCall
    simp only []
    split <;> rfl
  have hRU : ∀ t : LoopState, (refreshUrl cfg t).steps = t.steps := by
    intro t
    unfold refreshUrl actCall
    simp only []
    split <;> rfl
  have hOk : ∀ nx p (t : LoopState), (onActOk cfg nx p t).steps = t.steps := by
    intro nx p t
    have hCE : ∀ u : LoopState, (captureExtraction nx p u).steps = u.steps := by
      intro u
      unfold captureExtraction
      split <;> rfl
    have hTU : ∀ u : LoopState, (trackUrl cfg nx u).steps = u.steps := by
      intro u
      unfold trackUrl
      split
      · rw [hRU]
      · rfl
    unfold onActOk
    split
    · rw [hRS, hTU, hCE]
    · show (trackUrl cfg nx (captureExtraction nx p t)).steps = t.steps
      rw [hTU, hCE]
  have hExec : ∀ nx (t u : LoopState), execAction cfg nx t = BodyOut.next u →
      u.steps = t.steps := by
    intro nx t u h
    unfold execAction actCall at h
    split at h
    · rename_i m sc hpair
      injection hpair with hp1 hp2
      unfold onActFault at h
      split at h
      · exact BodyOut.noConfusion h
      · injection h with h
        subst h
        rw [hRS, ← hp2]
    · rename_i p sc hpair
      injection hpair with hp1 hp2
      injection h with h
      subst h
      rw [hOk, ← hp2]
  have hHS : ∀ nx (t u : LoopState), handleStep cfg nx t = BodyOut.next u →
      u.steps.length = t.steps.length + 1 := by
    intro nx t u h
    unfold handleStep at h
    split at h
    · exact BodyOut.noConfusion h
    · split at h
      · exact BodyOut.noConfusion h
      · split at h
        · unfold onRepeat at h
          split at h
          · exact BodyOut.noConfusion h
          · injection h with h
            subst h
            rw [hRS]
            simp
        · unfold afterLoopCheck at h
          split at h
          · exact BodyOut.noConfusion h
          · split at h
            · have h2 := hExec _ _ _ h
              rw [h2]
              simp
            · exact BodyOut.noConfusion h
  have key : s1.steps.length = s.steps.length + 1 ∧ s.steps.length < 15 := by
    unfold body MAX_STEPS at hb
    split at hb
    · exact BodyOut.noConfusion hb
    · rename_i hceil
      have h2 := hHS _ _ _ hb
      refine ⟨by simpa using h2, by omega⟩
  omega

/-- The state of `executeSubtask` at loop entry: fresh counters, the current
URL left at "unknown" (the URL probe of the source is a stubbed
`throw new Error("Not implemented")` whose catch sets "unknown"), and the
best-effort initial screenshot capture (on a fault the screenshot stays
`null`, which coincides with keeping the initial `none`). -/
def initState (cfg : LoopCfg) : LoopState :=
  let s0 : LoopState :=
    { steps := [], extraction := none, retryCount := 0, recentActionHistory := []
      currentScreenshot := none, currentUrl := "unknown"
      previousExtraction := cfg.previousExtraction
      oracleIdx := 0, actIdx := 0, isSubtaskComplete := false, trace := [], pauses := 0 }
  refreshScreenshot cfg s0

/-- `executeSubtask` of the worker module, as a function of the scripted
external behaviours.  Returns the `WorkerResult` together with the final
loop state (instrumentation). -/
def executeSubtask (cfg : LoopCfg) : WorkerResult × LoopState :=
  loopGo cfg (initState cfg)

/-! ### Helper lemmas: stage equations and field preservation -/

theorem refreshScreenshot_steps (cfg : LoopCfg) (t : LoopState) :
    (refreshScreenshot cfg t).steps = t.steps := by
  unfold refreshScreenshot actCall
  simp only []
  split <;> rfl

theorem refreshScreenshot_retryCount (cfg : LoopCfg) (t : LoopState) :
    (refreshScreenshot cfg t).retryCount = t.retryCount := by
  unfold refreshScreenshot actCall
  simp only []
  split <;> rfl

theorem refreshScreenshot_recentActionHistory (cfg : LoopCfg) (t : LoopState) :
    (refreshScreenshot cfg t).recentActionHistory = t.recentActionHistory := by
  unfold refreshScreenshot actCall
  simp only []
  split <;> rfl

theorem refreshScreenshot_oracleIdx (cfg : LoopCfg) (t : LoopState) :
    (refreshScreenshot cfg t).oracleIdx = t.oracleIdx := by
  unfold refreshScreenshot actCall
  simp only []
  split <;> rfl

theorem refreshScreenshot_isSubtaskComplete (cfg : LoopCfg) (t : LoopState) :
    (refreshScreenshot cfg t).isSubtaskComplete = t.isSubtaskComplete := by
  unfold refreshScreenshot actCall
  simp only []
  split <;> rfl

theorem refreshScreenshot_extraction (cfg : LoopCfg) (t : LoopState) :
    (refreshScreenshot cfg t).extraction = t.extraction := by
  unfold refreshScreenshot actCall
  simp only []
  split <;> rfl

theorem refreshScreenshot_pauses (cfg : LoopCfg) (t : LoopState) :
    (refreshScreenshot cfg t).pauses = t.pauses := by
  unfold refreshScreenshot actCall
  simp only []
  split <;> rfl

theorem refreshScreenshot_actIdx (cfg : LoopCfg) (t : LoopState) :
    (refreshScreenshot cfg t).actIdx = t.actIdx + 1 := by
  unfold refreshScreenshot actCall
  simp only []
  split <;> rfl

theorem refreshScreenshot_trace (cfg : LoopCfg) (t : LoopState) :
    (refreshScreenshot cfg t).trace = t.trace ++ [(Tool.SCREENSHOT, "")] := by
  unfold refreshScreenshot actCall
  simp only []
  split <;> rfl

theorem refreshScreenshot_ok (cfg : LoopCfg) (t : LoopState) (p : String)
    (h : cfg.act t.actIdx = ActOutcome.ok p) :
    (refreshScreenshot cfg t).currentScreenshot = some p := by
  unfold refreshScreenshot actCall
  simp only [h]

theorem refreshScreenshot_fault (cfg : LoopCfg) (t : LoopState) (m : String)
    (h : cfg.act t.actIdx = ActOutcome.fault m) :
    (refreshScreenshot cfg t).currentScreenshot = t.currentScreenshot := by
  unfold refreshScreenshot actCall
  simp only [h]

theorem refreshUrl_steps (cfg : LoopCfg) (t : LoopState) :
    (refreshUrl cfg t).steps = t.steps := by
  unfold refreshUrl actCall
  simp only []
  split <;> rfl

theorem refreshUrl_retryCount (cfg : LoopCfg) (t : LoopState) :
    (refreshUrl cfg t).retryCount = t.retryCount := by
  unfold refreshUrl actCall
  simp only []
  split <;> rfl

theorem refreshUrl_recentActionHistory (cfg : LoopCfg) (t : LoopState) :
    (refreshUrl cfg t).recentActionHistory = t.recentActionHistory := by
  unfold refreshUrl actCall
  simp only []
  split <;> rfl

theorem refreshUrl_oracleIdx (cfg : LoopCfg) (t : LoopState) :
    (refreshUrl cfg t).oracleIdx = t.oracleIdx := by
  unfold refreshUrl actCall
  simp only []
  split <;> rfl

theorem refreshUrl_isSubtaskComplete (cfg : LoopCfg) (t : LoopState) :
    (refreshUrl cfg t).isSubtaskComplete = t.isSubtaskComplete := by
  unfold refreshUrl actCall
  simp only []
  split <;> rfl

theorem refreshUrl_extraction (cfg : LoopCfg) (t : LoopState) :
    (refreshUrl cfg t).extraction = t.extraction := by
  unfold refreshUrl actCall
  simp only []
  split <;> rfl

theorem refreshUrl_pauses (cfg : LoopCfg) (t : LoopState) :
    (refreshUrl cfg t).pauses = t.pauses := by
  unfold refreshUrl actCall
  simp only []
  split <;> rfl

theorem refreshUrl_actIdx (cfg : LoopCfg) (t : LoopState) :
    (refreshUrl cfg t).actIdx = t.actIdx + 1 := by
  unfold refreshUrl actCall
  simp only []
  split <;> rfl

theorem refreshUrl_trace (cfg : LoopCfg) (t : LoopState) :
    (refreshUrl cfg t).trace = t.trace ++ [(Tool.EXTRACT, "return document.location.href")] := by
  unfold refreshUrl actCall
  simp only []
  split <;> rfl

theorem captureExtraction_steps (nx : BrowserStep) (p : String) (t : LoopState) :
    (captureExtraction nx p t).steps = t.steps := by
  unfold captureExtraction
  split <;> rfl

theorem captureExtraction_retryCount (nx : BrowserStep) (p : String) (t : LoopState) :
    (captureExtraction nx p t).retryCount = t.retryCount := by
  unfold captureExtraction
  split <;> rfl

theorem captureExtraction_recentActionHistory (nx : BrowserStep) (p : String) (t : LoopState) :
    (captureExtraction nx p t).recentActionHistory = t.recentActionHistory := by
  unfold captureExtraction
  split <;> rfl

theorem captureExtraction_oracleIdx (nx : BrowserStep) (p : String) (t : LoopState) :
    (captureExtraction nx p t).oracleIdx = t.oracleIdx := by
  unfold captureExtraction
  split <;> rfl

theorem captureExtraction_isSubtaskComplete (nx : BrowserStep) (p : String) (t : LoopState) :
    (captureExtraction nx p t).isSubtaskComplete = t.isSubtaskComplete := by
  unfold captureExtraction
  split <;> rfl

theorem captureExtraction_pauses (nx : BrowserStep) (p : String) (t : LoopState) :
    (captureExtraction nx p t).pauses = t.pauses := by
  unfold captureExtraction
  split <;> rfl

theorem captureExtraction_actIdx (nx : BrowserStep) (p : String) (t : LoopState) :
    (captureExtraction nx p t).actIdx = t.actIdx := by
  unfold captureExtraction
  split <;> rfl

theorem captureExtraction_trace (nx : BrowserStep) (p : String) (t : LoopState) :
    (captureExtraction nx p t).trace = t.trace := by
  unfold captureExtraction
  split <;> rfl

theorem trackUrl_steps (cfg : LoopCfg) (nx : BrowserStep) (t : LoopState) :
    (trackUrl cfg nx t).steps = t.steps := by
  unfold trackUrl
  split
  · rw [refreshUrl_steps]
  · rfl

theorem trackUrl_retryCount (cfg : LoopCfg) (nx : BrowserStep) (t : LoopState) :
    (trackUrl cfg nx t).retryCount = t.retryCount := by
  unfold trackUrl
  split
  · rw [refreshUrl_retryCount]
  · rfl

theorem trackUrl_recentActionHistory (cfg : LoopCfg) (nx : BrowserStep) (t : LoopState) :
    (trackUrl cfg nx t).recentActionHistory = t.recentActionHistory := by
  unfold trackUrl
  split
  · rw [refreshUrl_recentActionHistory]
  · rfl

theorem trackUrl_oracleIdx (cfg : LoopCfg) (nx : BrowserStep) (t : LoopState) :
    (trackUrl cfg nx t).oracleIdx = t.oracleIdx := by
  unfold trackUrl
  split
  · rw [refreshUrl_oracleIdx]
  · rfl

theorem trackUrl_isSubtaskComplete (cfg : LoopCfg) (nx : BrowserStep) (t : LoopState) :
    (trackUrl cfg nx t).isSubtaskComplete = t.isSubtaskComplete := by
  unfold trackUrl
  split
  · rw [refreshUrl_isSubtaskComplete]
  · rfl

theorem trackUrl_extraction (cfg : LoopCfg) (nx : BrowserStep) (t : LoopState) :
    (trackUrl cfg nx t).extraction = t.extraction := by
  unfold trackUrl
  split
  · rw [refreshUrl_extraction]
  · rfl

theorem trackUrl_pauses (cfg : LoopCfg) (nx : BrowserStep) (t : LoopState) :
    (trackUrl cfg nx t).pauses = t.pauses := by
  unfold trackUrl
  split
  · rw [refreshUrl_pauses]
  · rfl

theorem onActOk_steps (cfg : LoopCfg) (nx : BrowserStep) (p : String) (t : LoopState) :
    (onActOk cfg nx p t).steps = t.steps := by
  unfold onActOk
  split
  · rw [refreshScreenshot_steps, trackUrl_steps, captureExtraction_steps]
  · show (trackUrl cfg nx (captureExtraction nx p t)).steps = t.steps
    rw [trackUrl_steps, captureExtraction_steps]

theorem onActOk_retryCount (cfg : LoopCfg) (nx : BrowserStep) (p : String) (t : LoopState) :
    (onActOk cfg nx p t).retryCount = t.retryCount := by
  unfold onActOk
  split
  · rw [refreshScreenshot_retryCount, trackUrl_retryCount, captureExtraction_retryCount]
  · show (trackUrl cfg nx (captureExtraction nx p t)).retryCount = t.retryCount
    rw [trackUrl_retryCount, captureExtraction_retryCount]

theorem onActOk_recentActionHistory (cfg : LoopCfg) (nx : BrowserStep) (p : String)
    (t : LoopState) :
    (onActOk cfg nx p t).recentActionHistory = t.recentActionHistory := by
  unfold onActOk
  split
  · rw [refreshScreenshot_recentActionHistory, trackUrl_recentActionHistory,
      captureExtraction_recentActionHistory]
  · show (trackUrl cfg nx (captureExtraction nx p t)).recentActionHistory =
      t.recentActionHistory
    rw [trackUrl_recentActionHistory, captureExtraction_recentActionHistory]

theorem onActOk_oracleIdx (cfg : LoopCfg) (nx : BrowserStep) (p : String) (t : LoopState) :
    (onActOk cfg nx p t).oracleIdx = t.oracleIdx := by
  unfold onActOk
  split
  · rw [refreshScreenshot_oracleIdx, trackUrl_oracleIdx, captureExtraction_oracleIdx]
  · show (trackUrl cfg nx (captureExtraction nx p t)).oracleIdx = t.oracleIdx
    rw [trackUrl_oracleIdx, captureExtraction_oracleIdx]

theorem onActOk_isSubtaskComplete (cfg : LoopCfg) (nx : BrowserStep) (p : String)
    (t : LoopState) :
    (onActOk cfg nx p t).isSubtaskComplete = t.isSubtaskComplete := by
  unfold onActOk
  split
  · rw [refreshScreenshot_isSubtaskComplete, trackUrl_isSubtaskComplete,
      captureExtraction_isSubtaskComplete]
  · show (trackUrl cfg nx (captureExtraction nx p t)).isSubtaskComplete = t.isSubtaskComplete
    rw [trackUrl_isSubtaskComplete, captureExtraction_isSubtaskComplete]

theorem onActOk_pauses (cfg : LoopCfg) (nx : BrowserStep) (p : String) (t : LoopState) :
    (onActOk cfg nx p t).pauses = t.pauses := by
  unfold onActOk
  split
  · rw [refreshScreenshot_pauses, trackUrl_pauses, captureExtraction_pauses]
  · show (trackUrl cfg nx (captureExtraction nx p t)).pauses = t.pauses
    rw [trackUrl_pauses, captureExtraction_pauses]

/-! ### Helper lemmas: getNextStep and branch equations -/

theorem getNextStep_oracleFault : getNextStep OracleOutcome.fault = fallbackStep := rfl

theorem getNextStep_plain (st : BrowserStep) (h : hasCompletionLanguage st = false) :
    getNextStep (OracleOutcome.ok st) = st := by
  simp only [getNextStep]
  rw [if_neg]
  intro hcon
  rw [h] at hcon
  exact Bool.noConfusion hcon.2

theorem getNextStep_doneTool (st : BrowserStep) (h : st.tool = Tool.DONE) :
    getNextStep (OracleOutcome.ok st) = st := by
  simp only [getNextStep]
  rw [if_neg]
  intro hcon
  exact hcon.1 h

theorem getNextStep_convert (st : BrowserStep) (h1 : st.tool ≠ Tool.DONE)
    (h2 : hasCompletionLanguage st = true) :
    getNextStep (OracleOutcome.ok st) = convertToDone st := by
  simp only [getNextStep]
  rw [if_pos ⟨h1, h2⟩]

theorem body_ceiling (cfg : LoopCfg) (s : LoopState) (h : MAX_STEPS ≤ s.steps.length) :
    body cfg s =
      BodyOut.halt ⟨.FAILED, s.steps, none, some maxStepsError, s.retryCount⟩ s := by
  unfold body
  rw [if_pos h]

theorem body_noceiling (cfg : LoopCfg) (s : LoopState) (h : ¬ MAX_STEPS ≤ s.steps.length) :
    body cfg s =
      handleStep cfg (getNextStep (cfg.oracle s.oracleIdx))
        { s with oracleIdx := s.oracleIdx + 1 } := by
  unfold body
  rw [if_neg h]

theorem handleStep_done (cfg : LoopCfg) (nx : BrowserStep) (s0 : LoopState)
    (h : nx.tool = Tool.DONE) :
    handleStep cfg nx s0 =
      BodyOut.halt ⟨.DONE, s0.steps ++ [nx], s0.extraction, none, s0.retryCount⟩
        { s0 with steps := s0.steps ++ [nx] } := by
  unfold handleStep
  rw [if_pos h]

theorem handleStep_fail (cfg : LoopCfg) (nx : BrowserStep) (s0 : LoopState)
    (h : nx.tool = Tool.FAIL) :
    handleStep cfg nx s0 =
      BodyOut.halt ⟨.FAILED, s0.steps ++ [nx], none, some nx.instruction, s0.retryCount⟩
        { s0 with steps := s0.steps ++ [nx] } := by
  unfold handleStep
  rw [if_neg (by rw [h]; intro hcon; exact Tool.noConfusion hcon), if_pos h]

theorem handleStep_repeat (cfg : LoopCfg) (nx : BrowserStep) (s0 : LoopState)
    (h1 : nx.tool ≠ Tool.DONE) (h2 : nx.tool ≠ Tool.FAIL)
    (h3 : (isRepeatingAction s0.recentActionHistory nx).1 = true) :
    handleStep cfg nx s0 =
      onRepeat cfg nx
        { s0 with recentActionHistory := (isRepeatingAction s0.recentActionHistory nx).2 } := by
  unfold handleStep
  rw [if_neg h1, if_neg h2, if_pos h3]

theorem handleStep_norepeat (cfg : LoopCfg) (nx : BrowserStep) (s0 : LoopState)
    (h1 : nx.tool ≠ Tool.DONE) (h2 : nx.tool ≠ Tool.FAIL)
    (h3 : (isRepeatingAction s0.recentActionHistory nx).1 = false) :
    handleStep cfg nx s0 =
      afterLoopCheck cfg nx
        { s0 with recentActionHistory := (isRepeatingAction s0.recentActionHistory nx).2 } := by
  unfold handleStep
  rw [if_neg h1, if_neg h2, if_neg (by rw [h3]; exact Bool.noConfusion)]

theorem onRepeat_exhaust (cfg : LoopCfg) (nx : BrowserStep) (s1 : LoopState)
    (h : cfg.maxRetries ≤ s1.retryCount + 1) :
    onRepeat cfg nx s1 =
      BodyOut.halt ⟨.FAILED, s1.steps, none,
          some (repeatFailMsg nx.tool (s1.retryCount + 1)), s1.retryCount + 1⟩
        { s1 with retryCount := s1.retryCount + 1 } := by
  unfold onRepeat
  rw [if_pos h]

theorem onRepeat_cont (cfg : LoopCfg) (nx : BrowserStep) (s1 : LoopState)
    (h : ¬ cfg.maxRetries ≤ s1.retryCount + 1) :
    onRepeat cfg nx s1 =
      BodyOut.next (refreshScreenshot cfg
        { s1 with
          retryCount := s1.retryCount + 1
          steps := s1.steps ++ [waitMarkerStep]
          pauses := s1.pauses + 1 }) := by
  unfold onRepeat
  rw [if_neg h]

theorem afterLoopCheck_completion (cfg : LoopCfg) (nx : BrowserStep) (s1 : LoopState)
    (h : hasCompletionLanguage nx = true) :
    afterLoopCheck cfg nx s1 =
      BodyOut.halt ⟨.DONE, s1.steps ++ [nx] ++ [completionDoneStep], s1.extraction, none,
          s1.retryCount⟩
        { s1 with steps := s1.steps ++ [nx] ++ [completionDoneStep] } := by
  unfold afterLoopCheck
  rw [if_pos h]

theorem afterLoopCheck_exec (cfg : LoopCfg) (nx : BrowserStep) (s1 : LoopState)
    (h1 : hasCompletionLanguage nx = false) (h2 : nx.tool ≠ Tool.CLOSE) :
    afterLoopCheck cfg nx s1 =
      execAction cfg nx { s1 with steps := s1.steps ++ [nx] } := by
  unfold afterLoopCheck
  rw [if_neg (by rw [h1]; exact Bool.noConfusion), if_pos h2]

theorem afterLoopCheck_close (cfg : LoopCfg) (nx : BrowserStep) (s1 : LoopState)
    (h1 : hasCompletionLanguage nx = false) (h2 : nx.tool = Tool.CLOSE) :
    afterLoopCheck cfg nx s1 =
      BodyOut.halt ⟨.DONE, s1.steps ++ [nx] ++ [closeDoneStep], s1.extraction, none,
          s1.retryCount⟩
        { s1 with steps := s1.steps ++ [nx] ++ [closeDoneStep] } := by
  unfold afterLoopCheck
  rw [if_neg (by rw [h1]; exact Bool.noConfusion), if_neg (by rw [h2]; simp)]

theorem execAction_ok (cfg : LoopCfg) (nx : BrowserStep) (s2 : LoopState) (p : String)
    (h : cfg.act s2.actIdx = ActOutcome.ok p) :
    execAction cfg nx s2 =
      BodyOut.next (onActOk cfg nx p
        { s2 with
          actIdx := s2.actIdx + 1
          trace := s2.trace ++ [(nx.tool, nx.instruction)] }) := by
  unfold execAction actCall
  simp only [h]

theorem execAction_fault (cfg : LoopCfg) (nx : BrowserStep) (s2 : LoopState) (m : String)
    (h : cfg.act s2.actIdx = ActOutcome.fault m) :
    execAction cfg nx s2 =
      onActFault cfg m
        { s2 with
          actIdx := s2.actIdx + 1
          trace := s2.trace ++ [(nx.tool, nx.instruction)] } := by
  unfold execAction actCall
  simp only [h]

theorem onActFault_exhaust (cfg : LoopCfg) (m : String) (sc : LoopState)
    (h : cfg.maxRetries ≤ sc.retryCount + 1) :
    onActFault cfg m sc =
      BodyOut.halt ⟨.FAILED, sc.steps ++ [failMarkerStep m], none, some m, sc.retryCount + 1⟩
        { sc with
          steps := sc.steps ++ [failMarkerStep m]
          retryCount := sc.retryCount + 1 } := by
  unfold onActFault
  rw [if_pos h]

theorem onActFault_cont (cfg : LoopCfg) (m : String) (sc : LoopState)
    (h : ¬ cfg.maxRetries ≤ sc.retryCount + 1) :
    onActFault cfg m sc =
      BodyOut.next (refreshScreenshot cfg { sc with retryCount := sc.retryCount + 1 }) := by
  unfold onActFault
  rw [if_neg h]

/-! ### Helper lemmas: loop unfolding -/

theorem loopGo_flagTrue (cfg : LoopCfg) (s : LoopState) (hf : s.isSubtaskComplete = true) :
    loopGo cfg s =
      (⟨.DONE, s.steps ++ [finalDoneStep], s.extraction, none, s.retryCount⟩,
       { s with steps := s.steps ++ [finalDoneStep] }) := by
  rw [loopGo]
  rw [if_pos hf]

theorem loopGo_halt (cfg : LoopCfg) (s : LoopState) (r : WorkerResult) (s1 : LoopState)
    (hf : s.isSubtaskComplete = false) (hb : body cfg s = BodyOut.halt r s1) :
    loopGo cfg s = (r, s1) := by
  rw [loopGo]
  rw [if_neg (by rw [hf]; exact Bool.noConfusion)]
  split
  · rename_i r2 s2 heq
    rw [hb] at heq
    injection heq with h1 h2
    rw [h1, h2]
  · rename_i s2 heq
    rw [hb] at heq
    exact BodyOut.noConfusion heq

theorem loopGo_next (cfg : LoopCfg) (s : LoopState) (s1 : LoopState)
    (hf : s.isSubtaskComplete = false) (hb : body cfg s = BodyOut.next s1) :
    loopGo cfg s = loopGo cfg s1 := by
  rw [loopGo]
  rw [if_neg (by rw [hf]; exact Bool.noConfusion)]
  split
  · rename_i r2 s2 heq
    rw [hb] at heq
    exact BodyOut.noConfusion heq
  · rename_i s2 heq
    rw [hb] at heq
    injection heq with h1
    rw [h1]

theorem loopGoNoPost_halt (cfg : LoopCfg) (s : LoopState) (r : WorkerResult) (s1 : LoopState)
    (hb : body cfg s = BodyOut.halt r s1) :
    loopGoNoPost cfg s = (r, s1) := by
  rw [loopGoNoPost]
  split
  · rename_i r2 s2 heq
    rw [hb] at heq
    injection heq with h1 h2
    rw [h1, h2]
  · rename_i s2 heq
    rw [hb] at heq
    exact BodyOut.noConfusion heq

theorem loopGoNoPost_next (cfg : LoopCfg) (s : LoopState) (s1 : LoopState)
    (hb : body cfg s = BodyOut.next s1) :
    loopGoNoPost cfg s = loopGoNoPost cfg s1 := by
  rw [loopGoNoPost]
  split
  · rename_i r2 s2 heq
    rw [hb] at heq
    exact BodyOut.noConfusion heq
  · rename_i s2 heq
    rw [hb] at heq
    injection heq with h1
    rw [h1]

/-! ### Helper lemmas: trace shape of the post-execution bookkeeping -/

theorem trackUrl_trace_sub (cfg : LoopCfg) (nx : BrowserStep) (t : LoopState) :
    ∀ q ∈ (trackUrl cfg nx t).trace, q ∈ t.trace ∨ q.1 = Tool.EXTRACT := by
  unfold trackUrl
  split
  · intro q hq
    rw [refreshUrl_trace] at hq
    rcases List.mem_append.1 hq with h | h
    · exact Or.inl h
    · right
      rw [List.mem_singleton.1 h]
  · intro q hq
    exact Or.inl hq

theorem onActOk_trace_sub (cfg : LoopCfg) (nx : BrowserStep) (p : String) (t : LoopState) :
    ∀ q ∈ (onActOk cfg nx p t).trace,
      q ∈ t.trace ∨ q.1 = Tool.EXTRACT ∨ q.1 = Tool.SCREENSHOT := by
  unfold onActOk
  split
  · intro q hq
    rw [refreshScreenshot_trace] at hq
    rcases List.mem_append.1 hq with h | h
    · rcases trackUrl_trace_sub cfg nx _ q h with h2 | h2
      · rw [captureExtraction_trace] at h2
        exact Or.inl h2
      · exact Or.inr (Or.inl h2)
    · right; right
      rw [List.mem_singleton.1 h]
  · intro q hq
    rcases trackUrl_trace_sub cfg nx (captureExtraction nx p t) q hq with h2 | h2
    · rw [captureExtraction_trace] at h2
      exact Or.inl h2
    · exact Or.inr (Or.inl h2)

/-! ### Inversion facts for one loop iteration -/

theorem handleStep_next_facts (cfg : LoopCfg) (nx : BrowserStep) (s0 u : LoopState)
    (h : handleStep cfg nx s0 = BodyOut.next u) :
    u.steps.length = s0.steps.length + 1 ∧
    u.isSubtaskComplete = s0.isSubtaskComplete ∧
    (∀ q ∈ u.trace, q ∈ s0.trace ∨ q.1 ≠ Tool.CLOSE) := by
  by_cases hd : nx.tool = Tool.DONE
  · rw [handleStep_done _ _ _ hd] at h
    exact BodyOut.noConfusion h
  by_cases hf2 : nx.tool = Tool.FAIL
  · rw [handleStep_fail _ _ _ hf2] at h
    exact BodyOut.noConfusion h
  by_cases hr : (isRepeatingAction s0.recentActionHistory nx).1 = true
  · rw [handleStep_repeat _ _ _ hd hf2 hr] at h
    generalize hL :
      ({ s0 with recentActionHistory := (isRepeatingAction s0.recentActionHistory nx).2 } :
        LoopState) = L at h
    have hLr : L.retryCount = s0.retryCount := by rw [← hL]
    have hLs : L.steps = s0.steps := by rw [← hL]
    have hLf : L.isSubtaskComplete = s0.isSubtaskComplete := by rw [← hL]
    have hLt : L.trace = s0.trace := by rw [← hL]
    by_cases hm : cfg.maxRetries ≤ L.retryCount + 1
    · rw [onRepeat_exhaust _ _ _ hm] at h
      exact BodyOut.noConfusion h
    · rw [onRepeat_cont _ _ _ hm] at h
      injection h with h
      subst h
      refine ⟨?_, ?_, ?_⟩
      · rw [refreshScreenshot_steps]
        simp [hLs]
      · rw [refreshScreenshot_isSubtaskComplete]
        exact hLf
      · intro q hq
        rw [refreshScreenshot_trace] at hq
        rcases List.mem_append.1 hq with h2 | h2
        · left
          rw [← hLt]
          exact h2
        · right
          rw [List.mem_singleton.1 h2]
          intro hcon
          exact Tool.noConfusion hcon
  · have hr2 : (isRepeatingAction s0.recentActionHistory nx).1 = false := by
      revert hr
      cases (isRepeatingAction s0.recentActionHistory nx).1 <;> simp
    rw [handleStep_norepeat _ _ _ hd hf2 hr2] at h
    generalize hL :
      ({ s0 with recentActionHistory := (isRepeatingAction s0.recentActionHistory nx).2 } :
        LoopState) = L at h
    have hLr : L.retryCount = s0.retryCount := by rw [← hL]
    have hLs : L.steps = s0.steps := by rw [← hL]
    have hLf : L.isSubtaskComplete = s0.isSubtaskComplete := by rw [← hL]
    have hLt : L.trace = s0.trace := by rw [← hL]
    have hLa : L.actIdx = s0.actIdx := by rw [← hL]
    by_cases hcl : hasCompletionLanguage nx = true
    · rw [afterLoopCheck_completion _ _ _ hcl] at h
      exact BodyOut.noConfusion h
    · have hcl2 : hasCompletionLanguage nx = false := by
        revert hcl
        cases hasCompletionLanguage nx <;> simp
      by_cases hclose : nx.tool = Tool.CLOSE
      · rw [afterLoopCheck_close _ _ _ hcl2 hclose] at h
        exact BodyOut.noConfusion h
      · rw [afterLoopCheck_exec _ _ _ hcl2 hclose] at h
        generalize hM : ({ L with steps := L.steps ++ [nx] } : LoopState) = M at h
        have hMr : M.retryCount = s0.retryCount := by rw [← hM, hLr]
        have hMs : M.steps = s0.steps ++ [nx] := by rw [← hM, hLs]
        have hMf : M.isSubtaskComplete = s0.isSubtaskComplete := by rw [← hM]; exact hLf
        have hMt : M.trace = s0.trace := by rw [← hM]; exact hLt
        have hMa : M.actIdx = s0.actIdx := by rw [← hM]; exact hLa
        cases hact : cfg.act M.actIdx with
        | ok p =>
          rw [execAction_ok _ _ _ _ hact] at h
          injection h with h
          subst h
          refine ⟨?_, ?_, ?_⟩
          · rw [onActOk_steps]
            simp [hMs]
          · rw [onActOk_isSubtaskComplete]
            exact hMf
          · intro q hq
            rcases onActOk_trace_sub _ _ _ _ q hq with h2 | h2 | h2
            · rcases List.mem_append.1 h2 with h3 | h3
              · left
                rw [← hMt]
                exact h3
              · right
                rw [List.mem_singleton.1 h3]
                exact hclose
            · right
              rw [h2]
              intro hcon
              exact Tool.noConfusion hcon
            · right
              rw [h2]
              intro hcon
              exact Tool.noConfusion hcon
        | fault m =>
          rw [execAction_fault _ _ _ _ hact] at h
          generalize hN :
            ({ M with
                actIdx := M.actIdx + 1
                trace := M.trace ++ [(nx.tool, nx.instruction)] } : LoopState) = N at h
          have hNr : N.retryCount = s0.retryCount := by rw [← hN]; exact hMr
          have hNs : N.steps = s0.steps ++ [nx] := by rw [← hN]; exact hMs
          have hNf : N.isSubtaskComplete = s0.isSubtaskComplete := by rw [← hN]; exact hMf
          have hNt : N.trace = s0.trace ++ [(nx.tool, nx.instruction)] := by
            rw [← hN]
            show M.trace ++ [(nx.tool, nx.instruction)] = s0.trace ++ [(nx.tool, nx.instruction)]
            rw [hMt]
          by_cases hm2 : cfg.maxRetries ≤ N.retryCount + 1
          · rw [onActFault_exhaust _ _ _ hm2] at h
            exact BodyOut.noConfusion h
          · rw [onActFault_cont _ _ _ hm2] at h
            injection h with h
            subst h
            refine ⟨?_, ?_, ?_⟩
            · rw [refreshScreenshot_steps]
              show ({ N with retryCount := N.retryCount + 1 } : LoopState).steps.length = _
              simp [hNs]
            · rw [refreshScreenshot_isSubtaskComplete]
              exact hNf
            · intro q hq
              rw [refreshScreenshot_trace] at hq
              rcases List.mem_append.1 hq with h2 | h2
              · have h2b : q ∈ N.trace := h2
                rw [hNt] at h2b
                rcases List.mem_append.1 h2b with h3 | h3
                · exact Or.inl h3
                · right
                  rw [List.mem_singleton.1 h3]
                  exact hclose
              · right
                rw [List.mem_singleton.1 h2]
                intro hcon
                exact Tool.noConfusion hcon

theorem handleStep_halt_facts (cfg : LoopCfg) (nx : BrowserStep) (s0 : LoopState)
    (r : WorkerResult) (u : LoopState)
    (h : handleStep cfg nx s0 = BodyOut.halt r u) :
    (r.status = Status.FAILED → r.error.isSome) ∧
    u.isSubtaskComplete = s0.isSubtaskComplete ∧
    (∀ q ∈ u.trace, q ∈ s0.trace ∨ q.1 ≠ Tool.CLOSE) := by
  by_cases hd : nx.tool = Tool.DONE
  · rw [handleStep_done _ _ _ hd] at h
    injection h with h1 h2
    subst h1
    subst h2
    exact ⟨fun hcon => Status.noConfusion hcon, rfl, fun q hq => Or.inl hq⟩
  by_cases hf2 : nx.tool = Tool.FAIL
  · rw [handleStep_fail _ _ _ hf2] at h
    injection h with h1 h2
    subst h1
    subst h2
    exact ⟨fun _ => rfl, rfl, fun q hq => Or.inl hq⟩
  by_cases hr : (isRepeatingAction s0.recentActionHistory nx).1 = true
  · rw [handleStep_repeat _ _ _ hd hf2 hr] at h
    generalize hL :
      ({ s0 with recentActionHistory := (isRepeatingAction s0.recentActionHistory nx).2 } :
        LoopState) = L at h
    have hLf : L.isSubtaskComplete = s0.isSubtaskComplete := by rw [← hL]
    have hLt : L.trace = s0.trace := by rw [← hL]
    by_cases hm : cfg.maxRetries ≤ L.retryCount + 1
    · rw [onRepeat_exhaust _ _ _ hm] at h
      injection h with h1 h2
      subst h1
      subst h2
      refine ⟨fun _ => rfl, hLf, ?_⟩
      intro q hq
      left
      rw [← hLt]
      exact hq
    · rw [onRepeat_cont _ _ _ hm] at h
      exact BodyOut.noConfusion h
  · have hr2 : (isRepeatingAction s0.recentActionHistory nx).1 = false := by
      revert hr
      cases (isRepeatingAction s0.recentActionHistory nx).1 <;> simp
    rw [handleStep_norepeat _ _ _ hd hf2 hr2] at h
    generalize hL :
      ({ s0 with recentActionHistory := (isRepeatingAction s0.recentActionHistory nx).2 } :
        LoopState) = L at h
    have hLf : L.isSubtaskComplete = s0.isSubtaskComplete := by rw [← hL]
    have hLt : L.trace = s0.trace := by rw [← hL]
    by_cases hcl : hasCompletionLanguage nx = true
    · rw [afterLoopCheck_completion _ _ _ hcl] at h
      injection h with h1 h2
      subst h1
      subst h2
      refine ⟨fun hcon => Status.noConfusion hcon, hLf, ?_⟩
      intro q hq
      left
      rw [← hLt]
      exact hq
    · have hcl2 : hasCompletionLanguage nx = false := by
        revert hcl
        cases hasCompletionLanguage nx <;> simp
      by_cases hclose : nx.tool = Tool.CLOSE
      · rw [afterLoopCheck_close _ _ _ hcl2 hclose] at h
        injection h with h1 h2
        subst h1
        subst h2
        refine ⟨fun hcon => Status.noConfusion hcon, hLf, ?_⟩
        intro q hq
        left
        rw [← hLt]
        exact hq
      · rw [afterLoopCheck_exec _ _ _ hcl2 hclose] at h
        generalize hM : ({ L with steps := L.steps ++ [nx] } : LoopState) = M at h
        have hMf : M.isSubtaskComplete = s0.isSubtaskComplete := by rw [← hM]; exact hLf
        have hMt : M.trace = s0.trace := by rw [← hM]; exact hLt
        cases hact : cfg.act M.actIdx with
        | ok p =>
          rw [execAction_ok _ _ _ _ hact] at h
          exact BodyOut.noConfusion h
        | fault m =>
          rw [execAction_fault _ _ _ _ hact] at h
          generalize hN :
            ({ M with
                actIdx := M.actIdx + 1
                trace := M.trace ++ [(nx.tool, nx.instruction)] } : LoopState) = N at h
          have hNf : N.isSubtaskComplete = s0.isSubtaskComplete := by rw [← hN]; exact hMf
          have hNt : N.trace = s0.trace ++ [(nx.tool, nx.instruction)] := by
            rw [← hN]
            show M.trace ++ [(nx.tool, nx.instruction)] = s0.trace ++ [(nx.tool, nx.instruction)]
            rw [hMt]
          by_cases hm2 : cfg.maxRetries ≤ N.retryCount + 1
          · rw [onActFault_exhaust _ _ _ hm2] at h
            injection h with h1 h2
            subst h1
            subst h2
            refine ⟨fun _ => rfl, hNf, ?_⟩
            intro q hq
            have hq2 : q ∈ N.trace := hq
            rw [hNt] at hq2
            rcases List.mem_append.1 hq2 with h3 | h3
            · exact Or.inl h3
            · right
              rw [List.mem_singleton.1 h3]
              exact hclose
          · rw [onActFault_cont _ _ _ hm2] at h
            exact BodyOut.noConfusion h

theorem body_next_facts (cfg : LoopCfg) (s u : LoopState)
    (h : body cfg s = BodyOut.next u) :
    u.steps.length = s.steps.length + 1 ∧
    s.steps.length < MAX_STEPS ∧
    u.isSubtaskComplete = s.isSubtaskComplete ∧
    (∀ q ∈ u.trace, q ∈ s.trace ∨ q.1 ≠ Tool.CLOSE) := by
  by_cases hc : MAX_STEPS ≤ s.steps.length
  · rw [body_ceiling _ _ hc] at h
    exact BodyOut.noConfusion h
  · rw [body_noceiling _ _ hc] at h
    have hs := handleStep_next_facts cfg (getNextStep (cfg.oracle s.oracleIdx))
      { s with oracleIdx := s.oracleIdx + 1 } u h
    exact ⟨hs.1, by omega, hs.2.1, hs.2.2⟩

theorem body_halt_facts (cfg : LoopCfg) (s : LoopState) (r : WorkerResult) (u : LoopState)
    (h : body cfg s = BodyOut.halt r u) :
    (r.status = Status.FAILED → r.error.isSome) ∧
    u.isSubtaskComplete = s.isSubtaskComplete ∧
    (∀ q ∈ u.trace, q ∈ s.trace ∨ q.1 ≠ Tool.CLOSE) := by
  by_cases hc : MAX_STEPS ≤ s.steps.length
  · rw [body_ceiling _ _ hc] at h
    injection h with h1 h2
    subst h1
    subst h2
    exact ⟨fun _ => rfl, rfl, fun q hq => Or.inl hq⟩
  · rw [body_noceiling _ _ hc] at h
    have hs := handleStep_halt_facts cfg (getNextStep (cfg.oracle s.oracleIdx))
      { s with oracleIdx := s.oracleIdx + 1 } r u h
    exact ⟨hs.1, hs.2.1, hs.2.2⟩

/-! ### Loop-level facts by induction on the remaining step budget -/

theorem loopGo_facts_aux (cfg : LoopCfg) : ∀ (n : Nat) (s : LoopState),
    16 ≤ s.steps.length + n →
    ((loopGo cfg s).1.status = Status.FAILED → (loopGo cfg s).1.error.isSome) ∧
    (∀ q ∈ (loopGo cfg s).2.trace, q ∈ s.trace ∨ q.1 ≠ Tool.CLOSE) := by
  intro n
  induction n with
  | zero =>
    intro s hn
    by_cases hf : s.isSubtaskComplete = true
    · rw [loopGo_flagTrue cfg s hf]
      exact ⟨fun hcon => Status.noConfusion hcon, fun q hq => Or.inl hq⟩
    · have hf2 : s.isSubtaskComplete = false := by
        revert hf
        cases s.isSubtaskComplete <;> simp
      cases hb : body cfg s with
      | halt r s1 =>
        rw [loopGo_halt cfg s r s1 hf2 hb]
        exact ⟨(body_halt_facts cfg s r s1 hb).1, (body_halt_facts cfg s r s1 hb).2.2⟩
      | next s1 =>
        exfalso
        have := (body_next_facts cfg s s1 hb).2.1
        rw [MAX_STEPS] at this
        omega
  | succ n ih =>
    intro s hn
    by_cases hf : s.isSubtaskComplete = true
    · rw [loopGo_flagTrue cfg s hf]
      exact ⟨fun hcon => Status.noConfusion hcon, fun q hq => Or.inl hq⟩
    · have hf2 : s.isSubtaskComplete = false := by
        revert hf
        cases s.isSubtaskComplete <;> simp
      cases hb : body cfg s with
      | halt r s1 =>
        rw [loopGo_halt cfg s r s1 hf2 hb]
        exact ⟨(body_halt_facts cfg s r s1 hb).1, (body_halt_facts cfg s r s1 hb).2.2⟩
      | next s1 =>
        rw [loopGo_next cfg s s1 hf2 hb]
        have hfacts := body_next_facts cfg s s1 hb
        have hih := ih s1 (by omega)
        refine ⟨hih.1, ?_⟩
        intro q hq
        rcases hih.2 q hq with h2 | h2
        · exact hfacts.2.2.2 q h2
        · exact Or.inr h2

theorem loopGo_eq_noPost_aux (cfg : LoopCfg) : ∀ (n : Nat) (s : LoopState),
    16 ≤ s.steps.length + n → s.isSubtaskComplete = false →
    loopGo cfg s = loopGoNoPost cfg s := by
  intro n
  induction n with
  | zero =>
    intro s hn hf
    cases hb : body cfg s with
    | halt r s1 =>
      rw [loopGo_halt cfg s r s1 hf hb, loopGoNoPost_halt cfg s r s1 hb]
    | next s1 =>
      exfalso
      have := (body_next_facts cfg s s1 hb).2.1
      rw [MAX_STEPS] at this
      omega
  | succ n ih =>
    intro s hn hf
    cases hb : body cfg s with
    | halt r s1 =>
      rw [loopGo_halt cfg s r s1 hf hb, loopGoNoPost_halt cfg s r s1 hb]
    | next s1 =>
      have hfacts := body_next_facts cfg s s1 hb
      have hf1 : s1.isSubtaskComplete = false := by rw [hfacts.2.2.1, hf]
      rw [loopGo_next cfg s s1 hf hb, loopGoNoPost_next cfg s s1 hb]
      exact ih s1 (by omega) hf1

theorem initState_isSubtaskComplete (cfg : LoopCfg) :
    (initState cfg).isSubtaskComplete = false := by
  unfold initState
  rw [refreshScreenshot_isSubtaskComplete]

theorem initState_steps (cfg : LoopCfg) : (initState cfg).steps = [] := by
  unfold initState
  rw [refreshScreenshot_steps]

theorem initState_trace (cfg : LoopCfg) :
    (initState cfg).trace = [(Tool.SCREENSHOT, "")] := by
  unfold initState
  rw [refreshScreenshot_trace]
  rfl

/-! ### Claim C3: total loop contract (amended) -/

/-- **C3** (amended).  For every behaviour of the Decision Oracle and the
Actuator, `executeSubtask` terminates (it is a total function of the
behaviours) and returns a `WorkerResult` whose status is `DONE` or `FAILED`;
every result with status `FAILED` carries an error string (the `error` field
is always set).  Amendment: the error string is always *present* but not
always *non-empty* — an oracle `FAIL` step whose instruction is the empty
string yields `error = some ""` (see the counterexample). -/
theorem claim_C3_amended_total_contract (cfg : LoopCfg) :
    ((executeSubtask cfg).1.status = Status.DONE ∨
      (executeSubtask cfg).1.status = Status.FAILED) ∧
    ((executeSubtask cfg).1.status = Status.FAILED →
      (executeSubtask cfg).1.error.isSome) := by
  constructor
  · cases h : (executeSubtask cfg).1.status
    · exact Or.inl rfl
    · exact Or.inr rfl
  · have hfacts := loopGo_facts_aux cfg 16 (initState cfg)
      (by rw [initState_steps]; simp)
    exact hfacts.1

def stC3 : BrowserStep :=
  { text := "give up", reasoning := "cannot proceed", tool := Tool.FAIL, instruction := "" }

def cfgC3 : LoopCfg :=
  { oracle := fun _ => OracleOutcome.ok stC3
    act := fun _ => ActOutcome.ok ""
    maxRetries := 3
    previousExtraction := none }

/-- **C3** (counterexample to the claim as stated).  With an oracle whose
first decision is a `FAIL` step carrying the *empty* instruction string, the
loop terminates `FAILED` with `error = some ""`: the `FAILED` result does not
carry a non-empty human-readable error string, refuting the "non-empty"
part of the claim. -/
theorem claim_C3_counterexample :
    (executeSubtask cfgC3).1.status = Status.FAILED ∧
    (executeSubtask cfgC3).1.error = some "" := by
  have hc : ¬ MAX_STEPS ≤ (initState cfgC3).steps.length := by
    rw [initState_steps]
    decide
  have ho : cfgC3.oracle (initState cfgC3).oracleIdx = OracleOutcome.ok stC3 := rfl
  have hb : body cfgC3 (initState cfgC3) =
      BodyOut.halt
        ⟨Status.FAILED, (initState cfgC3).steps ++ [stC3], none, some stC3.instruction,
          (initState cfgC3).retryCount⟩
        { initState cfgC3 with
          oracleIdx := (initState cfgC3).oracleIdx + 1
          steps := (initState cfgC3).steps ++ [stC3] } := by
    rw [body_noceiling _ _ hc, ho, getNextStep_plain stC3 (by decide),
      handleStep_fail _ _ _ rfl]
  rw [show executeSubtask cfgC3 = loopGo cfgC3 (initState cfgC3) from rfl,
    loopGo_halt _ _ _ _ (initState_isSubtaskComplete cfgC3) hb]
  exact ⟨rfl, rfl⟩

def cfgW3 : LoopCfg :=
  { oracle := fun _ => OracleOutcome.ok
      { text := "give up", reasoning := "cannot proceed", tool := Tool.FAIL,
        instruction := "page not found" }
    act := fun _ => ActOutcome.ok ""
    maxRetries := 3
    previousExtraction := none }

/-- Witness for `claim_C3_amended_total_contract` at a concrete behaviour
whose run ends `FAILED`. -/
theorem claim_C3_witness : (executeSubtask cfgW3).1.error.isSome := by
  have hc : ¬ MAX_STEPS ≤ (initState cfgW3).steps.length := by
    rw [initState_steps]
    decide
  have hb : body cfgW3 (initState cfgW3) =
      BodyOut.halt
        ⟨Status.FAILED, (initState cfgW3).steps ++
            [{ text := "give up", reasoning := "cannot proceed", tool := Tool.FAIL,
               instruction := "page not found" }], none, some "page not found",
          (initState cfgW3).retryCount⟩
        { initState cfgW3 with
          oracleIdx := (initState cfgW3).oracleIdx + 1
          steps := (initState cfgW3).steps ++
            [{ text := "give up", reasoning := "cannot proceed", tool := Tool.FAIL,
               instruction := "page not found" }] } := by
    rw [body_noceiling _ _ hc, show cfgW3.oracle (initState cfgW3).oracleIdx =
        OracleOutcome.ok
          { text := "give up", reasoning := "cannot proceed", tool := Tool.FAIL,
            instruction := "page not found" } from rfl,
      getNextStep_plain _ (by decide), handleStep_fail _ _ _ rfl]
  exact (claim_C3_amended_total_contract cfgW3).2
    (by rw [show executeSubtask cfgW3 = loopGo cfgW3 (initState cfgW3) from rfl,
          loopGo_halt _ _ _ _ (initState_isSubtaskComplete cfgW3) hb])

/-! ### Claim C4: implicit completion -/

/-- **C4**.  For every step produced by the Decision Oracle whose text or
reasoning contains one of the fixed completion phrases while its tool is not
`DONE`, the Execution Loop synthesizes and appends a `DONE` step
(`convertToDone`, performed inside `getNextStep`) and the iteration halts
with status `DONE` without executing the step's action: the halt state shown
has an unchanged actuator trace and an unchanged `actIdx`, so no actuator
invocation happens for the step. -/
theorem claim_C4_implicit_completion (cfg : LoopCfg) (s : LoopState) (st : BrowserStep)
    (hlen : s.steps.length < MAX_STEPS)
    (ho : cfg.oracle s.oracleIdx = OracleOutcome.ok st)
    (hphrase : hasCompletionLanguage st = true)
    (htool : st.tool ≠ Tool.DONE) :
    body cfg s =
      BodyOut.halt
        ⟨Status.DONE, s.steps ++ [convertToDone st], s.extraction, none, s.retryCount⟩
        { s with
          oracleIdx := s.oracleIdx + 1
          steps := s.steps ++ [convertToDone st] } := by
  have hc : ¬ MAX_STEPS ≤ s.steps.length := by omega
  rw [body_noceiling _ _ hc, ho, getNextStep_convert st htool hphrase,
    handleStep_done _ _ _ rfl]

def cfgW4 : LoopCfg :=
  { oracle := fun _ => OracleOutcome.ok
      { text := "Subtask complete, the price is visible", reasoning := "all results shown"
        tool := Tool.ACT, instruction := "click the price row" }
    act := fun _ => ActOutcome.ok ""
    maxRetries := 3
    previousExtraction := none }

/-- Witness for `claim_C4_implicit_completion`: an `ACT` step whose text
contains "subtask complete" is converted to a synthetic `DONE` and the `ACT`
is never sent to the actuator. -/
theorem claim_C4_witness :
    body cfgW4 (initState cfgW4) =
      BodyOut.halt
        ⟨Status.DONE,
          (initState cfgW4).steps ++
            [convertToDone
              { text := "Subtask complete, the price is visible", reasoning := "all results shown"
                tool := Tool.ACT, instruction := "click the price row" }],
          (initState cfgW4).extraction, none, (initState cfgW4).retryCount⟩
        { initState cfgW4 with
          oracleIdx := (initState cfgW4).oracleIdx + 1
          steps := (initState cfgW4).steps ++
            [convertToDone
              { text := "Subtask complete, the price is visible", reasoning := "all results shown"
                tool := Tool.ACT, instruction := "click the price row" }] } :=
  claim_C4_implicit_completion cfgW4 (initState cfgW4)
    { text := "Subtask complete, the price is visible", reasoning := "all results shown"
      tool := Tool.ACT, instruction := "click the price row" }
    (by rw [initState_steps]; decide) rfl (by decide) (by decide)

/-! ### Claim C8: session-teardown interception -/

/-- **C8**.  (1) Globally: no execution of `executeSubtask`, under any
behaviours, ever invokes the actuator with the `CLOSE` method — the `CLOSE`
branch of the actuator dispatch is unreachable from the loop.  (2) For every
`CLOSE` step returned by the Decision Oracle (that does not carry completion
language, which would be converted to `DONE` even earlier, and is not a
detected repetition), the iteration appends the step and a synthetic `DONE`
step and halts with status `DONE`; the halt state has an unchanged trace and
`actIdx`, so the actuator is not invoked for the step. -/
theorem claim_C8_close_interception :
    (∀ cfg : LoopCfg, ∀ q ∈ (executeSubtask cfg).2.trace, q.1 ≠ Tool.CLOSE) ∧
    (∀ (cfg : LoopCfg) (s : LoopState) (st : BrowserStep),
      s.steps.length < MAX_STEPS →
      cfg.oracle s.oracleIdx = OracleOutcome.ok st →
      st.tool = Tool.CLOSE →
      hasCompletionLanguage st = false →
      (isRepeatingAction s.recentActionHistory st).1 = false →
      body cfg s =
        BodyOut.halt
          ⟨Status.DONE, s.steps ++ [st] ++ [closeDoneStep], s.extraction, none, s.retryCount⟩
          { s with
            oracleIdx := s.oracleIdx + 1
            recentActionHistory := (isRepeatingAction s.recentActionHistory st).2
            steps := s.steps ++ [st] ++ [closeDoneStep] }) := by
  constructor
  · intro cfg q hq
    have hfacts := loopGo_facts_aux cfg 16 (initState cfg) (by rw [initState_steps]; simp)
    rcases hfacts.2 q hq with h2 | h2
    · rw [initState_trace] at h2
      rw [List.mem_singleton.1 h2]
      intro hcon
      exact Tool.noConfusion hcon
    · exact h2
  · intro cfg s st hlen ho hclose hphrase hrep
    have hc : ¬ MAX_STEPS ≤ s.steps.length := by omega
    have hd : st.tool ≠ Tool.DONE := by
      rw [hclose]
      intro hcon
      exact Tool.noConfusion hcon
    have hf2 : st.tool ≠ Tool.FAIL := by
      rw [hclose]
      intro hcon
      exact Tool.noConfusion hcon
    have hrep2 :
        (isRepeatingAction ({ s with oracleIdx := s.oracleIdx + 1 } :
          LoopState).recentActionHistory st).1 = false := hrep
    rw [body_noceiling _ _ hc, ho, getNextStep_plain st hphrase,
      handleStep_norepeat _ _ _ hd hf2 hrep2, afterLoopCheck_close _ _ _ hphrase hclose]

def cfgW8 : LoopCfg :=
  { oracle := fun _ => OracleOutcome.ok
      { text := "Finishing up", reasoning := "nothing left to do here"
        tool := Tool.CLOSE, instruction := "close the session" }
    act := fun _ => ActOutcome.ok ""
    maxRetries := 3
    previousExtraction := none }

/-- Witness for `claim_C8_close_interception` at a concrete `CLOSE` step. -/
theorem claim_C8_witness :
    body cfgW8 (initState cfgW8) =
      BodyOut.halt
        ⟨Status.DONE,
          (initState cfgW8).steps ++
              [{ text := "Finishing up", reasoning := "nothing left to do here"
                 tool := Tool.CLOSE, instruction := "close the session" }] ++
            [closeDoneStep],
          (initState cfgW8).extraction, none, (initState cfgW8).retryCount⟩
        { initState cfgW8 with
          oracleIdx := (initState cfgW8).oracleIdx + 1
          recentActionHistory :=
            (isRepeatingAction (initState cfgW8).recentActionHistory
              { text := "Finishing up", reasoning := "nothing left to do here"
                tool := Tool.CLOSE, instruction := "close the session" }).2
          steps := (initState cfgW8).steps ++
              [{ text := "Finishing up", reasoning := "nothing left to do here"
                 tool := Tool.CLOSE, instruction := "close the session" }] ++
            [closeDoneStep] } :=
  claim_C8_close_interception.2 cfgW8 (initState cfgW8)
    { text := "Finishing up", reasoning := "nothing left to do here"
      tool := Tool.CLOSE, instruction := "close the session" }
    (by rw [initState_steps]; decide) rfl rfl (by decide) (by decide)

/-! ### Claim C9: the post-loop code path is unreachable -/

/-- **C9**.  The loop-control flag `isSubtaskComplete` is never assigned
`true` by any iteration of the body, so the code path after the `while` loop
(the "Reached the end of execution successfully" `DONE` result, modelled by
the flag-true branch of `loopGo`) is unreachable: on every state with the
flag `false` — in particular on the initial state of `executeSubtask` — the
loop coincides with `loopGoNoPost`, whose every result is produced by a
`return` inside the loop body. -/
theorem claim_C9_post_loop_unreachable (cfg : LoopCfg) :
    (∀ s s1 : LoopState, body cfg s = BodyOut.next s1 →
      s1.isSubtaskComplete = s.isSubtaskComplete) ∧
    (∀ s : LoopState, s.isSubtaskComplete = false →
      loopGo cfg s = loopGoNoPost cfg s) ∧
    executeSubtask cfg = loopGoNoPost cfg (initState cfg) := by
  refine ⟨?_, ?_, ?_⟩
  · intro s s1 hb
    exact (body_next_facts cfg s s1 hb).2.2.1
  · intro s hf
    exact loopGo_eq_noPost_aux cfg (16 + s.steps.length) s (by omega) hf
  · rw [show executeSubtask cfg = loopGo cfg (initState cfg) from rfl]
    exact loopGo_eq_noPost_aux cfg 16 (initState cfg) (by rw [initState_steps]; simp)
      (initState_isSubtaskComplete cfg)

def cfgW9 : LoopCfg :=
  { oracle := fun _ => OracleOutcome.ok
      { text := "done now", reasoning := "finished", tool := Tool.DONE, instruction := "ok" }
    act := fun _ => ActOutcome.ok ""
    maxRetries := 3
    previousExtraction := none }

/-- Witness for `claim_C9_post_loop_unreachable` at a concrete behaviour and
the concrete loop-entry state. -/
theorem claim_C9_witness :
    loopGo cfgW9 (initState cfgW9) = loopGoNoPost cfgW9 (initState cfgW9) :=
  (claim_C9_post_loop_unreachable cfgW9).2.1 (initState cfgW9) rfl

/-! ### Claim C10: a step is appended before its action is executed -/

/-- **C10**.  Every non-`DONE`, non-`FAIL`, non-`CLOSE`, non-repeating step
returned by the Decision Oracle is appended to the step history *before* its
action is executed, so when the action faults the faulting step remains in
the result's steps: on retry exhaustion the halt result's steps are
`s.steps ++ [st] ++ [failMarkerStep m]` (the attempted step stays), and in
the retry path the next state's steps are `s.steps ++ [st]` while the trace
records the attempted (faulting) invocation — the step history can therefore
contain actions that were attempted but never successfully executed. -/
theorem claim_C10_appended_before_execution (cfg : LoopCfg) (s : LoopState)
    (st : BrowserStep) (m : String)
    (hlen : s.steps.length < MAX_STEPS)
    (ho : cfg.oracle s.oracleIdx = OracleOutcome.ok st)
    (hphrase : hasCompletionLanguage st = false)
    (hdone : st.tool ≠ Tool.DONE) (hfail : st.tool ≠ Tool.FAIL)
    (hclose : st.tool ≠ Tool.CLOSE)
    (hrep : (isRepeatingAction s.recentActionHistory st).1 = false)
    (hact : cfg.act s.actIdx = ActOutcome.fault m) :
    (cfg.maxRetries ≤ s.retryCount + 1 →
      ∃ u, body cfg s =
        BodyOut.halt
          ⟨Status.FAILED, s.steps ++ [st] ++ [failMarkerStep m], none, some m,
            s.retryCount + 1⟩ u ∧
        u.trace = s.trace ++ [(st.tool, st.instruction)]) ∧
    (s.retryCount + 1 < cfg.maxRetries →
      ∃ u, body cfg s = BodyOut.next u ∧
        u.steps = s.steps ++ [st] ∧
        u.retryCount = s.retryCount + 1 ∧
        u.trace = s.trace ++ [(st.tool, st.instruction)] ++ [(Tool.SCREENSHOT, "")]) := by
  have hc : ¬ MAX_STEPS ≤ s.steps.length := by omega
  have hrep2 :
      (isRepeatingAction ({ s with oracleIdx := s.oracleIdx + 1 } :
        LoopState).recentActionHistory st).1 = false := hrep
  have hact2 : cfg.act ({ s with
      oracleIdx := s.oracleIdx + 1
      recentActionHistory := (isRepeatingAction s.recentActionHistory st).2
      steps := s.steps ++ [st] } : LoopState).actIdx = ActOutcome.fault m := hact
  have hbody : body cfg s =
      onActFault cfg m
        { s with
          oracleIdx := s.oracleIdx + 1
          recentActionHistory := (isRepeatingAction s.recentActionHistory st).2
          steps := s.steps ++ [st]
          actIdx := s.actIdx + 1
          trace := s.trace ++ [(st.tool, st.instruction)] } := by
    rw [body_noceiling _ _ hc, ho, getNextStep_plain st hphrase,
      handleStep_norepeat _ _ _ hdone hfail hrep2,
      afterLoopCheck_exec _ _ _ hphrase hclose,
      execAction_fault _ _ _ _ hact2]
  constructor
  · intro hm
    refine ⟨{ s with
        oracleIdx := s.oracleIdx + 1
        recentActionHistory := (isRepeatingAction s.recentActionHistory st).2
        steps := s.steps ++ [st] ++ [failMarkerStep m]
        actIdx := s.actIdx + 1
        trace := s.trace ++ [(st.tool, st.instruction)]
        retryCount := s.retryCount + 1 }, ?_, rfl⟩
    rw [hbody]
    exact onActFault_exhaust _ _ _ hm
  · intro hm
    have hm2 : ¬ cfg.maxRetries ≤ s.retryCount + 1 := by omega
    refine ⟨refreshScreenshot cfg
      { s with
        oracleIdx := s.oracleIdx + 1
        recentActionHistory := (isRepeatingAction s.recentActionHistory st).2
        steps := s.steps ++ [st]
        actIdx := s.actIdx + 1
        trace := s.trace ++ [(st.tool, st.instruction)]
        retryCount := s.retryCount + 1 }, ?_, ?_, ?_, ?_⟩
    · rw [hbody]
      exact onActFault_cont _ _ _ hm2
    · rw [refreshScreenshot_steps]
    · rw [refreshScreenshot_retryCount]
    · rw [refreshScreenshot_trace]

def stW10 : BrowserStep :=
  { text := "Click the checkout button", reasoning := "the cart is ready"
    tool := Tool.ACT, instruction := "click checkout" }

def cfgW10 : LoopCfg :=
  { oracle := fun _ => OracleOutcome.ok stW10
    act := fun _ => ActOutcome.fault "element not found"
    maxRetries := 3
    previousExtraction := none }

/-- Witness for `claim_C10_appended_before_execution` at a concrete faulting
run (retry path: the attempted step stays in the history). -/
theorem claim_C10_witness :
    ∃ u, body cfgW10 (initState cfgW10) = BodyOut.next u ∧
      u.steps = (initState cfgW10).steps ++ [stW10] ∧
      u.retryCount = (initState cfgW10).retryCount + 1 ∧
      u.trace = (initState cfgW10).trace ++ [(stW10.tool, stW10.instruction)] ++
        [(Tool.SCREENSHOT, "")] :=
  (claim_C10_appended_before_execution cfgW10 (initState cfgW10) stW10 "element not found"
    (by rw [initState_steps]; decide) rfl (by decide) (by decide) (by decide) (by decide)
    (by decide) rfl).2 (by decide)

/-! ### Claim C5: actuator fault handling (amended) -/

/-- **C5** (amended).  On an actuator fault while executing a step, the loop
increments the retry counter.  In the retry path it appends *no* step for
the fault itself (the next state's steps are `s.steps ++ [st]`, exactly the
pre-execution append of the attempted step), pauses briefly, best-effort
refreshes the screenshot (on a refresh success the snapshot is replaced, on
a refresh fault it is kept), and requests a new decision (the oracle index
has advanced and the iteration falls through).  Amendment: when the retry
counter reaches `maxRetries`, the loop terminates `FAILED` with the fault's
message as the error, but — contrary to the claim's "appends no step for the
fault itself" — it *does* append an explicit `FAIL` marker step
(`failMarkerStep m`) for the fault before returning (see the
counterexample). -/
theorem claim_C5_amended_actuator_fault (cfg : LoopCfg) (s : LoopState)
    (st : BrowserStep) (m : String)
    (hlen : s.steps.length < MAX_STEPS)
    (ho : cfg.oracle s.oracleIdx = OracleOutcome.ok st)
    (hphrase : hasCompletionLanguage st = false)
    (hdone : st.tool ≠ Tool.DONE) (hfail : st.tool ≠ Tool.FAIL)
    (hclose : st.tool ≠ Tool.CLOSE)
    (hrep : (isRepeatingAction s.recentActionHistory st).1 = false)
    (hact : cfg.act s.actIdx = ActOutcome.fault m) :
    (s.retryCount + 1 < cfg.maxRetries →
      ∃ u, body cfg s = BodyOut.next u ∧
        u.steps = s.steps ++ [st] ∧
        u.retryCount = s.retryCount + 1 ∧
        u.oracleIdx = s.oracleIdx + 1 ∧
        (∀ p, cfg.act (s.actIdx + 1) = ActOutcome.ok p → u.currentScreenshot = some p) ∧
        (∀ m2, cfg.act (s.actIdx + 1) = ActOutcome.fault m2 →
          u.currentScreenshot = s.currentScreenshot)) ∧
    (cfg.maxRetries ≤ s.retryCount + 1 →
      ∃ u, body cfg s =
        BodyOut.halt
          ⟨Status.FAILED, s.steps ++ [st] ++ [failMarkerStep m], none, some m,
            s.retryCount + 1⟩ u) := by
  have hc : ¬ MAX_STEPS ≤ s.steps.length := by omega
  have hrep2 :
      (isRepeatingAction ({ s with oracleIdx := s.oracleIdx + 1 } :
        LoopState).recentActionHistory st).1 = false := hrep
  have hact2 : cfg.act ({ s with
      oracleIdx := s.oracleIdx + 1
      recentActionHistory := (isRepeatingAction s.recentActionHistory st).2
      steps := s.steps ++ [st] } : LoopState).actIdx = ActOutcome.fault m := hact
  have hbody : body cfg s =
      onActFault cfg m
        { s with
          oracleIdx := s.oracleIdx + 1
          recentActionHistory := (isRepeatingAction s.recentActionHistory st).2
          steps := s.steps ++ [st]
          actIdx := s.actIdx + 1
          trace := s.trace ++ [(st.tool, st.instruction)] } := by
    rw [body_noceiling _ _ hc, ho, getNextStep_plain st hphrase,
      handleStep_norepeat _ _ _ hdone hfail hrep2,
      afterLoopCheck_exec _ _ _ hphrase hclose,
      execAction_fault _ _ _ _ hact2]
  constructor
  · intro hm
    have hm2 : ¬ cfg.maxRetries ≤ s.retryCount + 1 := by omega
    refine ⟨refreshScreenshot cfg
      { s with
        oracleIdx := s.oracleIdx + 1
        recentActionHistory := (isRepeatingAction s.recentActionHistory st).2
        steps := s.steps ++ [st]
        actIdx := s.actIdx + 1
        trace := s.trace ++ [(st.tool, st.instruction)]
        retryCount := s.retryCount + 1 }, ?_, ?_, ?_, ?_, ?_, ?_⟩
    · rw [hbody]
      exact onActFault_cont _ _ _ hm2
    · rw [refreshScreenshot_steps]
    · rw [refreshScreenshot_retryCount]
    · rw [refreshScreenshot_oracleIdx]
    · intro p hp
      exact refreshScreenshot_ok cfg _ p hp
    · intro m2 hm3
      exact refreshScreenshot_fault cfg _ m2 hm3
  · intro hm
    refine ⟨{ s with
        oracleIdx := s.oracleIdx + 1
        recentActionHistory := (isRepeatingAction s.recentActionHistory st).2
        steps := s.steps ++ [st] ++ [failMarkerStep m]
        actIdx := s.actIdx + 1
        trace := s.trace ++ [(st.tool, st.instruction)]
        retryCount := s.retryCount + 1 }, ?_⟩
    rw [hbody]
    exact onActFault_exhaust _ _ _ hm

def stC5 : BrowserStep :=
  { text := "Click the search button", reasoning := "need to search"
    tool := Tool.ACT, instruction := "click search" }

def cfgC5 : LoopCfg :=
  { oracle := fun _ => OracleOutcome.ok stC5
    act := fun _ => ActOutcome.fault "boom"
    maxRetries := 1
    previousExtraction := none }

/-- **C5** (counterexample to the claim as stated).  With `maxRetries = 1`,
an oracle that decides `ACT "click search"` and an actuator that faults with
"boom", the very first fault exhausts the retries and the returned result's
step history is `[stC5, failMarkerStep "boom"]`: a `FAIL` step for the fault
*was* appended (the claim predicts no step is appended for the fault
itself), refuting the claim at this concrete input. -/
theorem claim_C5_counterexample :
    (executeSubtask cfgC5).1.status = Status.FAILED ∧
    (executeSubtask cfgC5).1.error = some "boom" ∧
    (executeSubtask cfgC5).1.retryCount = 1 ∧
    (executeSubtask cfgC5).1.steps = [stC5, failMarkerStep "boom"] := by
  have hth := claim_C5_amended_actuator_fault cfgC5 (initState cfgC5) stC5 "boom"
    (by rw [initState_steps]; decide) rfl (by decide) (by decide) (by decide) (by decide)
    rfl rfl
  rcases hth.2 (by decide) with ⟨u, hu⟩
  rw [show executeSubtask cfgC5 = loopGo cfgC5 (initState cfgC5) from rfl,
    loopGo_halt _ _ _ _ (initState_isSubtaskComplete cfgC5) hu]
  refine ⟨rfl, rfl, ?_, ?_⟩
  · rw [show (initState cfgC5).retryCount = 0 from rfl]
  · rw [show (initState cfgC5).steps = ([] : List BrowserStep) from rfl]
    rfl

def stW5 : BrowserStep :=
  { text := "Type the city name", reasoning := "form requires a city"
    tool := Tool.ACT, instruction := "type Paris" }

def cfgW5 : LoopCfg :=
  { oracle := fun _ => OracleOutcome.ok stW5
    act := fun _ => ActOutcome.fault "timeout"
    maxRetries := 3
    previousExtraction := none }

/-- Witness for `claim_C5_amended_actuator_fault` at a concrete faulting run
(retry path). -/
theorem claim_C5_witness :
    ∃ u, body cfgW5 (initState cfgW5) = BodyOut.next u ∧
      u.steps = (initState cfgW5).steps ++ [stW5] ∧
      u.retryCount = (initState cfgW5).retryCount + 1 ∧
      u.oracleIdx = (initState cfgW5).oracleIdx + 1 ∧
      (∀ p, cfgW5.act ((initState cfgW5).actIdx + 1) = ActOutcome.ok p →
        u.currentScreenshot = some p) ∧
      (∀ m2, cfgW5.act ((initState cfgW5).actIdx + 1) = ActOutcome.fault m2 →
        u.currentScreenshot = (initState cfgW5).currentScreenshot) :=
  (claim_C5_amended_actuator_fault cfgW5 (initState cfgW5) stW5 "timeout"
    (by rw [initState_steps]; decide) rfl (by decide) (by decide) (by decide) (by decide)
    rfl rfl).1 (by decide)

/-! ### Claim C1 groundwork: duplicate counting over a constant history -/

theorem isRepeatingAction_fst (hist : List (Tool × String)) (st : BrowserStep) :
    (isRepeatingAction hist st).1 = decide (MAX_DUPLICATES ≤ dupCount hist st) := rfl

theorem isRepeatingAction_snd (hist : List (Tool × String)) (st : BrowserStep) :
    (isRepeatingAction hist st).2 =
      if MAX_HISTORY < (hist ++ [(st.tool, st.instruction)]).length then
        (hist ++ [(st.tool, st.instruction)]).drop 1
      else hist ++ [(st.tool, st.instruction)] := rfl

theorem dupCount_replicate (k : Nat) (st : BrowserStep) :
    dupCount (List.replicate k (st.tool, st.instruction)) st = k := by
  unfold dupCount
  rw [List.filter_replicate_of_pos (by simp)]
  exact List.length_replicate k _

theorem dupCount_eq_zero (hist : List (Tool × String)) (st : BrowserStep)
    (h : ∀ q ∈ hist, q.1 ≠ st.tool ∨ q.2 ≠ st.instruction) : dupCount hist st = 0 := by
  unfold dupCount
  rw [List.length_eq_zero]
  rw [List.filter_eq_nil_iff]
  intro a ha
  rcases h a ha with h2 | h2 <;> simp [h2]

theorem hist_push (st : BrowserStep) (k : Nat) (hk : k ≤ 5) :
    (isRepeatingAction (List.replicate k (st.tool, st.instruction)) st).2 =
      List.replicate (min (k + 1) 5) (st.tool, st.instruction) := by
  rw [isRepeatingAction_snd, ← List.replicate_succ']
  by_cases h5 : 5 < k + 1
  · rw [if_pos (by simpa [MAX_HISTORY] using h5)]
    have hk5 : k = 5 := by omega
    subst hk5
    rw [show min (5 + 1) 5 = 5 by omega]
    rw [List.replicate_succ]
    rfl
  · rw [if_neg (by simpa [MAX_HISTORY] using h5)]
    congr 1
    omega

theorem initState_oracleIdx (cfg : LoopCfg) : (initState cfg).oracleIdx = 0 := by
  unfold initState
  rw [refreshScreenshot_oracleIdx]

theorem initState_retryCount (cfg : LoopCfg) : (initState cfg).retryCount = 0 := by
  unfold initState
  rw [refreshScreenshot_retryCount]

theorem initState_recentActionHistory (cfg : LoopCfg) :
    (initState cfg).recentActionHistory = [] := by
  unfold initState
  rw [refreshScreenshot_recentActionHistory]

theorem initState_pauses (cfg : LoopCfg) : (initState cfg).pauses = 0 := by
  unfold initState
  rw [refreshScreenshot_pauses]

/-- The configuration of the C1 scenario: an oracle that always returns the
same step, an arbitrary actuator, and the default retry ceiling (3). -/
def constCfg (st : BrowserStep) (act : Nat → ActOutcome) (pe : Option String) : LoopCfg :=
  { oracle := fun _ => OracleOutcome.ok st, act := act, maxRetries := 3
    previousExtraction := pe }

/-- Invariant induction for the C1 scenario: with a constant non-terminal
decision and any actuator behaviour, the loop fails with exactly 3 retries
and at most 3 synthetic pauses. -/
theorem constOracle_run (st : BrowserStep) (act : Nat → ActOutcome) (pe : Option String)
    (hdone : st.tool ≠ Tool.DONE) (hfail : st.tool ≠ Tool.FAIL) (hclose : st.tool ≠ Tool.CLOSE)
    (hphrase : hasCompletionLanguage st = false) :
    ∀ (n : Nat) (s : LoopState) (k : Nat),
      (3 - s.retryCount) + (2 - k) ≤ n →
      s.recentActionHistory = List.replicate k (st.tool, st.instruction) →
      k ≤ 5 → s.retryCount ≤ 2 → s.steps.length ≤ k + s.retryCount →
      s.pauses ≤ s.retryCount → s.isSubtaskComplete = false →
      (loopGo (constCfg st act pe) s).1.status = Status.FAILED ∧
      (loopGo (constCfg st act pe) s).1.retryCount = 3 ∧
      (loopGo (constCfg st act pe) s).2.pauses ≤ 3 := by
  intro n
  induction n with
  | zero =>
    intro s k hn hhist hk5 hr2 hsteps hp hflag
    omega
  | succ n ih =>
    intro s k hn hhist hk5 hr2 hsteps hp hflag
    have hc : ¬ MAX_STEPS ≤ s.steps.length := by
      simp only [MAX_STEPS]
      omega
    have ho : (constCfg st act pe).oracle s.oracleIdx = OracleOutcome.ok st := rfl
    have hdup : dupCount s.recentActionHistory st = k := by
      rw [hhist, dupCount_replicate]
    have hhist2 : (isRepeatingAction s.recentActionHistory st).2 =
        List.replicate (min (k + 1) 5) (st.tool, st.instruction) := by
      rw [hhist, hist_push st k hk5]
    by_cases hk2 : 2 ≤ k
    · -- the repetition branch fires
      have hrep0 : (isRepeatingAction s.recentActionHistory st).1 = true := by
        rw [isRepeatingAction_fst, hdup]
        simp only [MAX_DUPLICATES]
        exact decide_eq_true hk2
      have hrep :
          (isRepeatingAction ({ s with oracleIdx := s.oracleIdx + 1 } :
            LoopState).recentActionHistory st).1 = true := hrep0
      have hbody : body (constCfg st act pe) s =
          onRepeat (constCfg st act pe) st
            { s with
              oracleIdx := s.oracleIdx + 1
              recentActionHistory := (isRepeatingAction s.recentActionHistory st).2 } := by
        rw [body_noceiling _ _ hc, ho, getNextStep_plain st hphrase,
          handleStep_repeat _ _ _ hdone hfail hrep]
      by_cases hmr3 : (3 : Nat) ≤ s.retryCount + 1
      · have hb2 : body (constCfg st act pe) s =
            BodyOut.halt
              ⟨Status.FAILED, s.steps, none, some (repeatFailMsg st.tool (s.retryCount + 1)),
                s.retryCount + 1⟩
              { s with
                oracleIdx := s.oracleIdx + 1
                recentActionHistory := (isRepeatingAction s.recentActionHistory st).2
                retryCount := s.retryCount + 1 } := by
          rw [hbody]
          exact onRepeat_exhaust _ _ _ hmr3
        rw [loopGo_halt _ _ _ _ hflag hb2]
        refine ⟨rfl, ?_, ?_⟩
        · show s.retryCount + 1 = 3
          omega
        · show s.pauses ≤ 3
          omega
      · have hb2 : body (constCfg st act pe) s =
            BodyOut.next (refreshScreenshot (constCfg st act pe)
              { s with
                oracleIdx := s.oracleIdx + 1
                recentActionHistory := (isRepeatingAction s.recentActionHistory st).2
                retryCount := s.retryCount + 1
                steps := s.steps ++ [waitMarkerStep]
                pauses := s.pauses + 1 }) := by
          rw [hbody]
          exact onRepeat_cont _ _ _ hmr3
        rw [loopGo_next _ _ _ hflag hb2]
        apply ih _ (min (k + 1) 5)
        · rw [refreshScreenshot_retryCount]
          show 3 - (s.retryCount + 1) + (2 - min (k + 1) 5) ≤ n
          omega
        · rw [refreshScreenshot_recentActionHistory]
          exact hhist2
        · omega
        · rw [refreshScreenshot_retryCount]
          show s.retryCount + 1 ≤ 2
          omega
        · rw [refreshScreenshot_steps, refreshScreenshot_retryCount]
          show (s.steps ++ [waitMarkerStep]).length ≤ min (k + 1) 5 + (s.retryCount + 1)
          rw [List.length_append]
          simp only [List.length_singleton]
          omega
        · rw [refreshScreenshot_pauses, refreshScreenshot_retryCount]
          show s.pauses + 1 ≤ s.retryCount + 1
          omega
        · rw [refreshScreenshot_isSubtaskComplete]
          exact hflag
    · -- no repetition: the step is executed
      have hrep0 : (isRepeatingAction s.recentActionHistory st).1 = false := by
        rw [isRepeatingAction_fst, hdup]
        simp only [MAX_DUPLICATES]
        exact decide_eq_false (by omega)
      have hrep :
          (isRepeatingAction ({ s with oracleIdx := s.oracleIdx + 1 } :
            LoopState).recentActionHistory st).1 = false := hrep0
      have hbody : body (constCfg st act pe) s =
          execAction (constCfg st act pe) st
            { s with
              oracleIdx := s.oracleIdx + 1
              recentActionHistory := (isRepeatingAction s.recentActionHistory st).2
              steps := s.steps ++ [st] } := by
        rw [body_noceiling _ _ hc, ho, getNextStep_plain st hphrase,
          handleStep_norepeat _ _ _ hdone hfail hrep,
          afterLoopCheck_exec _ _ _ hphrase hclose]
      cases hacase : act s.actIdx with
      | ok p =>
        have hact2 : (constCfg st act pe).act ({ s with
            oracleIdx := s.oracleIdx + 1
            recentActionHistory := (isRepeatingAction s.recentActionHistory st).2
            steps := s.steps ++ [st] } : LoopState).actIdx = ActOutcome.ok p := hacase
        have hb2 : body (constCfg st act pe) s =
            BodyOut.next (onActOk (constCfg st act pe) st p
              { s with
                oracleIdx := s.oracleIdx + 1
                recentActionHistory := (isRepeatingAction s.recentActionHistory st).2
                steps := s.steps ++ [st]
                actIdx := s.actIdx + 1
                trace := s.trace ++ [(st.tool, st.instruction)] }) := by
          rw [hbody]
          exact execAction_ok _ _ _ _ hact2
        rw [loopGo_next _ _ _ hflag hb2]
        apply ih _ (min (k + 1) 5)
        · rw [onActOk_retryCount]
          show 3 - s.retryCount + (2 - min (k + 1) 5) ≤ n
          omega
        · rw [onActOk_recentActionHistory]
          exact hhist2
        · omega
        · rw [onActOk_retryCount]
          exact hr2
        · rw [onActOk_steps, onActOk_retryCount]
          show (s.steps ++ [st]).length ≤ min (k + 1) 5 + s.retryCount
          rw [List.length_append]
          simp only [List.length_singleton]
          omega
        · rw [onActOk_pauses, onActOk_retryCount]
          exact hp
        · rw [onActOk_isSubtaskComplete]
          exact hflag
      | fault m =>
        have hact2 : (constCfg st act pe).act ({ s with
            oracleIdx := s.oracleIdx + 1
            recentActionHistory := (isRepeatingAction s.recentActionHistory st).2
            steps := s.steps ++ [st] } : LoopState).actIdx = ActOutcome.fault m := hacase
        have hbody2 : body (constCfg st act pe) s =
            onActFault (constCfg st act pe) m
              { s with
                oracleIdx := s.oracleIdx + 1
                recentActionHistory := (isRepeatingAction s.recentActionHistory st).2
                steps := s.steps ++ [st]
                actIdx := s.actIdx + 1
                trace := s.trace ++ [(st.tool, st.instruction)] } := by
          rw [hbody]
          exact execAction_fault _ _ _ _ hact2
        by_cases hmr3 : (3 : Nat) ≤ s.retryCount + 1
        · have hb2 : body (constCfg st act pe) s =
              BodyOut.halt
                ⟨Status.FAILED, s.steps ++ [st] ++ [failMarkerStep m], none, some m,
                  s.retryCount + 1⟩
                { s with
                  oracleIdx := s.oracleIdx + 1
                  recentActionHistory := (isRepeatingAction s.recentActionHistory st).2
                  steps := s.steps ++ [st] ++ [failMarkerStep m]
                  actIdx := s.actIdx + 1
                  trace := s.trace ++ [(st.tool, st.instruction)]
                  retryCount := s.retryCount + 1 } := by
            rw [hbody2]
            exact onActFault_exhaust _ _ _ hmr3
          rw [loopGo_halt _ _ _ _ hflag hb2]
          refine ⟨rfl, ?_, ?_⟩
          · show s.retryCount + 1 = 3
            omega
          · show s.pauses ≤ 3
            omega
        · have hb2 : body (constCfg st act pe) s =
              BodyOut.next (refreshScreenshot (constCfg st act pe)
                { s with
                  oracleIdx := s.oracleIdx + 1
                  recentActionHistory := (isRepeatingAction s.recentActionHistory st).2
                  steps := s.steps ++ [st]
                  actIdx := s.actIdx + 1
                  trace := s.trace ++ [(st.tool, st.instruction)]
                  retryCount := s.retryCount + 1 }) := by
            rw [hbody2]
            exact onActFault_cont _ _ _ hmr3
          rw [loopGo_next _ _ _ hflag hb2]
          apply ih _ (min (k + 1) 5)
          · rw [refreshScreenshot_retryCount]
            show 3 - (s.retryCount + 1) + (2 - min (k + 1) 5) ≤ n
            omega
          · rw [refreshScreenshot_recentActionHistory]
            exact hhist2
          · omega
          · rw [refreshScreenshot_retryCount]
            show s.retryCount + 1 ≤ 2
            omega
          · rw [refreshScreenshot_steps, refreshScreenshot_retryCount]
            show (s.steps ++ [st]).length ≤ min (k + 1) 5 + (s.retryCount + 1)
            rw [List.length_append]
            simp only [List.length_singleton]
            omega
          · rw [refreshScreenshot_pauses, refreshScreenshot_retryCount]
            show s.pauses ≤ s.retryCount + 1
            omega
          · rw [refreshScreenshot_isSubtaskComplete]
            exact hflag

/-! ### Claim C1: loop detection -/

/-- **C1**.  (1) Per step: whenever the Decision Oracle returns a plain
non-terminal step (no `DONE`/`FAIL` tool, no completion language — the
latter terminates `DONE` by implicit completion instead, see C4) whose
(tool, instruction) pair already occurs at least `MAX_DUPLICATES` (= 2)
times in the bounded history of the last `MAX_HISTORY` (= 5) pairs, the
action is not executed (the trace gains no entry for it; on the retry path
only the break-loop screenshot refresh is traced) and the retry counter is
incremented; when the counter reaches `maxRetries` the iteration halts
`FAILED` citing the repeated action, and otherwise a synthetic `WAIT` step
is appended to the step history and a new decision is requested (the oracle
index has advanced and the loop continues).  (2) Scenario: for an oracle
that always returns the same such non-terminal step, under any actuator
behaviour and with the default `maxRetries = 3`, the loop terminates
`FAILED` with retry count `≥ maxRetries` and issues at most `maxRetries`
synthetic re-orientation pauses. -/
theorem claim_C1_loop_detection :
    (∀ (cfg : LoopCfg) (s : LoopState) (st : BrowserStep),
      s.steps.length < MAX_STEPS →
      cfg.oracle s.oracleIdx = OracleOutcome.ok st →
      hasCompletionLanguage st = false →
      st.tool ≠ Tool.DONE → st.tool ≠ Tool.FAIL →
      MAX_DUPLICATES ≤ dupCount s.recentActionHistory st →
      (cfg.maxRetries ≤ s.retryCount + 1 →
        ∃ u, body cfg s =
          BodyOut.halt
            ⟨Status.FAILED, s.steps, none,
              some (repeatFailMsg st.tool (s.retryCount + 1)), s.retryCount + 1⟩ u ∧
          u.trace = s.trace) ∧
      (s.retryCount + 1 < cfg.maxRetries →
        ∃ u, body cfg s = BodyOut.next u ∧
          u.steps = s.steps ++ [waitMarkerStep] ∧
          u.retryCount = s.retryCount + 1 ∧
          u.oracleIdx = s.oracleIdx + 1 ∧
          u.trace = s.trace ++ [(Tool.SCREENSHOT, "")])) ∧
    (∀ (st : BrowserStep) (act : Nat → ActOutcome) (pe : Option String),
      st.tool ≠ Tool.DONE → st.tool ≠ Tool.FAIL → st.tool ≠ Tool.CLOSE →
      hasCompletionLanguage st = false →
      (executeSubtask (constCfg st act pe)).1.status = Status.FAILED ∧
      3 ≤ (executeSubtask (constCfg st act pe)).1.retryCount ∧
      (executeSubtask (constCfg st act pe)).2.pauses ≤ 3) := by
  constructor
  · intro cfg s st hlen ho hphrase hdone hfail hdup
    have hc : ¬ MAX_STEPS ≤ s.steps.length := by omega
    have hrep0 : (isRepeatingAction s.recentActionHistory st).1 = true := by
      rw [isRepeatingAction_fst]
      exact decide_eq_true hdup
    have hrep :
        (isRepeatingAction ({ s with oracleIdx := s.oracleIdx + 1 } :
          LoopState).recentActionHistory st).1 = true := hrep0
    have hbody : body cfg s =
        onRepeat cfg st
          { s with
            oracleIdx := s.oracleIdx + 1
            recentActionHistory := (isRepeatingAction s.recentActionHistory st).2 } := by
      rw [body_noceiling _ _ hc, ho, getNextStep_plain st hphrase,
        handleStep_repeat _ _ _ hdone hfail hrep]
    constructor
    · intro hm
      refine ⟨{ s with
          oracleIdx := s.oracleIdx + 1
          recentActionHistory := (isRepeatingAction s.recentActionHistory st).2
          retryCount := s.retryCount + 1 }, ?_, rfl⟩
      rw [hbody]
      exact onRepeat_exhaust _ _ _ hm
    · intro hm
      have hm2 : ¬ cfg.maxRetries ≤ s.retryCount + 1 := by omega
      refine ⟨refreshScreenshot cfg
        { s with
          oracleIdx := s.oracleIdx + 1
          recentActionHistory := (isRepeatingAction s.recentActionHistory st).2
          retryCount := s.retryCount + 1
          steps := s.steps ++ [waitMarkerStep]
          pauses := s.pauses + 1 }, ?_, ?_, ?_, ?_, ?_⟩
      · rw [hbody]
        exact onRepeat_cont _ _ _ hm2
      · rw [refreshScreenshot_steps]
      · rw [refreshScreenshot_retryCount]
      · rw [refreshScreenshot_oracleIdx]
      · rw [refreshScreenshot_trace]
  · intro st act pe hdone hfail hclose hphrase
    have haux := constOracle_run st act pe hdone hfail hclose hphrase 5 (initState (constCfg st act pe)) 0
      (by rw [initState_retryCount])
      (by rw [initState_recentActionHistory]; rfl)
      (by omega)
      (by rw [initState_retryCount]; omega)
      (by rw [initState_steps, initState_retryCount]; simp)
      (by rw [initState_pauses, initState_retryCount])
      (initState_isSubtaskComplete _)
    exact ⟨haux.1, haux.2.1.ge, haux.2.2⟩

def stW1 : BrowserStep :=
  { text := "Click the login button", reasoning := "the button is visible"
    tool := Tool.ACT, instruction := "click login" }

/-- Witness for `claim_C1_loop_detection` at a concrete constant oracle. -/
theorem claim_C1_witness :
    (executeSubtask (constCfg stW1 (fun _ => ActOutcome.ok "") none)).1.status =
      Status.FAILED ∧
    3 ≤ (executeSubtask (constCfg stW1 (fun _ => ActOutcome.ok "") none)).1.retryCount ∧
    (executeSubtask (constCfg stW1 (fun _ => ActOutcome.ok "") none)).2.pauses ≤ 3 :=
  claim_C1_loop_detection.2 stW1 (fun _ => ActOutcome.ok "") none
    (by decide) (by decide) (by decide) (by decide)

/-! ### Claim C2: step ceiling -/

/-- The configuration of the C2 scenario: an oracle that returns the scripted
step sequence `f`, never faulting. -/
def seqCfg (f : Nat → BrowserStep) (act : Nat → ActOutcome) (mr : Nat)
    (pe : Option String) : LoopCfg :=
  { oracle := fun n => OracleOutcome.ok (f n), act := act, maxRetries := mr
    previousExtraction := pe }

/-- Invariant induction for the C2 scenario: with pairwise-distinct
non-terminal decisions and a never-faulting actuator, the loop runs to the
step ceiling and fails there with exactly 15 recorded steps. -/
theorem seqOracle_run (f : Nat → BrowserStep) (act : Nat → ActOutcome) (mr : Nat)
    (pe : Option String)
    (htool : ∀ n, n < 15 → (f n).tool ≠ Tool.DONE ∧ (f n).tool ≠ Tool.FAIL ∧
      (f n).tool ≠ Tool.CLOSE)
    (hphrase : ∀ n, n < 15 → hasCompletionLanguage (f n) = false)
    (hdist : ∀ i, i < 15 → ∀ j, j < 15 → (f i).tool = (f j).tool →
      (f i).instruction = (f j).instruction → i = j)
    (hact : ∀ n, ∃ p, act n = ActOutcome.ok p) :
    ∀ (n : Nat) (s : LoopState),
      s.steps.length + n = 15 →
      s.oracleIdx = s.steps.length →
      (∀ q ∈ s.recentActionHistory, ∃ j, j < s.oracleIdx ∧
        q = ((f j).tool, (f j).instruction)) →
      s.isSubtaskComplete = false →
      (loopGo (seqCfg f act mr pe) s).1.status = Status.FAILED ∧
      (loopGo (seqCfg f act mr pe) s).1.error = some maxStepsError ∧
      (loopGo (seqCfg f act mr pe) s).1.steps.length = 15 := by
  intro n
  induction n with
  | zero =>
    intro s hn hidx hhist hflag
    have hb : body (seqCfg f act mr pe) s =
        BodyOut.halt ⟨Status.FAILED, s.steps, none, some maxStepsError, s.retryCount⟩ s :=
      body_ceiling _ _ (by simp only [MAX_STEPS]; omega)
    rw [loopGo_halt _ _ _ _ hflag hb]
    refine ⟨rfl, rfl, ?_⟩
    show s.steps.length = 15
    omega
  | succ n ih =>
    intro s hn hidx hhist hflag
    have hlen : s.steps.length < 15 := by omega
    have hi15 : s.oracleIdx < 15 := by omega
    obtain ⟨ht1, ht2, ht3⟩ := htool s.oracleIdx hi15
    have hph := hphrase s.oracleIdx hi15
    have hc : ¬ MAX_STEPS ≤ s.steps.length := by
      simp only [MAX_STEPS]
      omega
    have ho : (seqCfg f act mr pe).oracle s.oracleIdx =
        OracleOutcome.ok (f s.oracleIdx) := rfl
    have hdup : dupCount s.recentActionHistory (f s.oracleIdx) = 0 := by
      apply dupCount_eq_zero
      intro q hq
      obtain ⟨j, hj, hqe⟩ := hhist q hq
      rcases Decidable.em (q.1 = (f s.oracleIdx).tool) with he | he
      · rcases Decidable.em (q.2 = (f s.oracleIdx).instruction) with he2 | he2
        · exfalso
          have hj2 : j = s.oracleIdx := by
            apply hdist j (by omega) s.oracleIdx hi15
            · rw [hqe] at he
              exact he
            · rw [hqe] at he2
              exact he2
          omega
        · exact Or.inr he2
      · exact Or.inl he
    have hrep0 : (isRepeatingAction s.recentActionHistory (f s.oracleIdx)).1 = false := by
      rw [isRepeatingAction_fst, hdup]
      rfl
    have hrep :
        (isRepeatingAction ({ s with oracleIdx := s.oracleIdx + 1 } :
          LoopState).recentActionHistory (f s.oracleIdx)).1 = false := hrep0
    have hbody : body (seqCfg f act mr pe) s =
        execAction (seqCfg f act mr pe) (f s.oracleIdx)
          { s with
            oracleIdx := s.oracleIdx + 1
            recentActionHistory :=
              (isRepeatingAction s.recentActionHistory (f s.oracleIdx)).2
            steps := s.steps ++ [f s.oracleIdx] } := by
      rw [body_noceiling _ _ hc, ho, getNextStep_plain _ hph,
        handleStep_norepeat _ _ _ ht1 ht2 hrep,
        afterLoopCheck_exec _ _ _ hph ht3]
    obtain ⟨p, hp⟩ := hact s.actIdx
    have hact2 : (seqCfg f act mr pe).act ({ s with
        oracleIdx := s.oracleIdx + 1
        recentActionHistory := (isRepeatingAction s.recentActionHistory (f s.oracleIdx)).2
        steps := s.steps ++ [f s.oracleIdx] } : LoopState).actIdx = ActOutcome.ok p := hp
    have hb2 : body (seqCfg f act mr pe) s =
        BodyOut.next (onActOk (seqCfg f act mr pe) (f s.oracleIdx) p
          { s with
            oracleIdx := s.oracleIdx + 1
            recentActionHistory :=
              (isRepeatingAction s.recentActionHistory (f s.oracleIdx)).2
            steps := s.steps ++ [f s.oracleIdx]
            actIdx := s.actIdx + 1
            trace := s.trace ++ [((f s.oracleIdx).tool, (f s.oracleIdx).instruction)] }) := by
      rw [hbody]
      exact execAction_ok _ _ _ _ hact2
    rw [loopGo_next _ _ _ hflag hb2]
    apply ih
    · rw [onActOk_steps]
      show (s.steps ++ [f s.oracleIdx]).length + n = 15
      rw [List.length_append]
      simp only [List.length_singleton]
      omega
    · rw [onActOk_oracleIdx, onActOk_steps]
      show s.oracleIdx + 1 = (s.steps ++ [f s.oracleIdx]).length
      rw [List.length_append]
      simp only [List.length_singleton]
      omega
    · rw [onActOk_recentActionHistory, onActOk_oracleIdx]
      show ∀ q ∈ (isRepeatingAction s.recentActionHistory (f s.oracleIdx)).2,
        ∃ j, j < s.oracleIdx + 1 ∧ q = ((f j).tool, (f j).instruction)
      intro q hq
      rw [isRepeatingAction_snd] at hq
      have hq3 : q ∈ s.recentActionHistory ++
          [((f s.oracleIdx).tool, (f s.oracleIdx).instruction)] := by
        split at hq
        · exact List.mem_of_mem_drop hq
        · exact hq
      rcases List.mem_append.1 hq3 with h4 | h4
      · obtain ⟨j, hj, hje⟩ := hhist q h4
        exact ⟨j, by omega, hje⟩
      · exact ⟨s.oracleIdx, by omega, List.mem_singleton.1 h4⟩
    · rw [onActOk_isSubtaskComplete]
      exact hflag

/-- **C2**.  (1) Scenario: for an oracle that always returns a valid
non-terminal, non-repeating step (pairwise-distinct (tool, instruction)
pairs, no completion phrases, tools outside `DONE`/`FAIL`/`CLOSE`) and an
actuator that never faults, `executeSubtask` terminates `FAILED` with the
error "Exceeded maximum number of steps (15)" and exactly 15 recorded
steps — for *every* `maxRetries`, so the ceiling is independent of the
retry configuration.  (2) The ceiling check fires before requesting another
decision: on any state with at least `MAX_STEPS` recorded steps, the body
halts with the ceiling failure for every configuration (hence without
consulting the oracle) and every retry-counter value. -/
theorem claim_C2_step_ceiling :
    (∀ (f : Nat → BrowserStep) (act : Nat → ActOutcome) (mr : Nat) (pe : Option String),
      (∀ n, n < 15 → (f n).tool ≠ Tool.DONE ∧ (f n).tool ≠ Tool.FAIL ∧
        (f n).tool ≠ Tool.CLOSE) →
      (∀ n, n < 15 → hasCompletionLanguage (f n) = false) →
      (∀ i, i < 15 → ∀ j, j < 15 → (f i).tool = (f j).tool →
        (f i).instruction = (f j).instruction → i = j) →
      (∀ n, ∃ p, act n = ActOutcome.ok p) →
      (executeSubtask (seqCfg f act mr pe)).1.status = Status.FAILED ∧
      (executeSubtask (seqCfg f act mr pe)).1.error = some maxStepsError ∧
      (executeSubtask (seqCfg f act mr pe)).1.steps.length = 15) ∧
    (∀ (cfg : LoopCfg) (s : LoopState), MAX_STEPS ≤ s.steps.length →
      body cfg s =
        BodyOut.halt ⟨Status.FAILED, s.steps, none, some maxStepsError, s.retryCount⟩ s) := by
  constructor
  · intro f act mr pe htool hphrase hdist hact
    exact seqOracle_run f act mr pe htool hphrase hdist hact 15 (initState (seqCfg f act mr pe))
      (by rw [initState_steps]; rfl)
      (by rw [initState_oracleIdx, initState_steps]; rfl)
      (by
        rw [initState_recentActionHistory]
        intro q hq
        exact absurd hq (List.not_mem_nil q))
      (initState_isSubtaskComplete _)
  · exact body_ceiling

def fW2 : Nat → BrowserStep := fun n =>
  { text := "next step", reasoning := "keep going", tool := Tool.ACT
    instruction := "a" ++ toString n }

/-- Witness for `claim_C2_step_ceiling` at a concrete scripted oracle. -/
theorem claim_C2_witness :
    (executeSubtask (seqCfg fW2 (fun _ => ActOutcome.ok "") 3 none)).1.status =
      Status.FAILED ∧
    (executeSubtask (seqCfg fW2 (fun _ => ActOutcome.ok "") 3 none)).1.error =
      some maxStepsError ∧
    (executeSubtask (seqCfg fW2 (fun _ => ActOutcome.ok "") 3 none)).1.steps.length = 15 :=
  claim_C2_step_ceiling.1 fW2 (fun _ => ActOutcome.ok "") 3 none
    (by decide) (by decide) (by decide) (fun n => ⟨"", rfl⟩)

/-! ### Claim C6: createTask validation (Task Store, modelled from the spec)

The planner (`createTaskPlan` in planner.ts) produces subtasks with ids and
dependency ids derived from 0-based plan indices; the Task Store module
(`task-manager`) that `createTask` lives in is not part of the provided
sources, so its validation logic is modelled from the specification. -/

/-- Subtask lifecycle status (planner.ts / spec §3). -/
inductive SubStatus
  | PENDING | IN_PROGRESS | DONE | FAILED
deriving DecidableEq, Repr

/-- One subtask of a raw plan, with 0-based dependency indices, as produced
by the planner LLM schema (planner.ts). -/
structure PlanSubtask where
  description : String
  goal : String
  dependencies : Option (List Nat)
deriving DecidableEq, Repr

/-- A raw plan: summary plus at least (to be validated) one subtask. -/
structure TaskPlanInput where
  summary : String
  subtasks : List PlanSubtask
deriving DecidableEq, Repr

/-- The deterministic subtask id for 0-based plan position `i`
(planner.ts: `subtask-` with the 1-based index). -/
def subtaskIdOf (i : Nat) : String := "subtask-" ++ toString (i + 1)

/-- A stored subtask with resolved dependency ids. -/
structure TMSubtask where
  id : String
  description : String
  goal : String
  dependencies : Option (List String)
  status : SubStatus
deriving DecidableEq, Repr

/-- A stored Task. -/
structure TMTask where
  id : String
  goal : String
  summary : String
  sessionId : String
  subtasks : List TMSubtask
  status : SubStatus
deriving DecidableEq, Repr

inductive CreateError
  | InvalidPlan
deriving DecidableEq, Repr

/-- Are all of `ds` already placed (Kahn's algorithm helper)? -/
def depsResolved (done : List Nat) (ds : List Nat) : Bool :=
  ds.all (fun d => done.contains d)

/-- One fuelled Kahn elimination pass: repeatedly move every node whose
dependencies are all placed; succeed iff everything gets placed. -/
def topoAux : Nat → List Nat → List (Nat × List Nat) → Bool
  | 0, _, pending => pending.isEmpty
  | Nat.succ n, done, pending =>
    if pending.isEmpty then true
    else
      if (pending.filter (fun pr => depsResolved done pr.2)).isEmpty then false
      else
        topoAux n (done ++ (pending.filter (fun pr => depsResolved done pr.2)).map Prod.fst)
          (pending.filter (fun pr => !(depsResolved done pr.2)))

/-- Does a topological sort over the declared dependency edges succeed?
(The spec defines the cycle check as: "a topological sort over the declared
dependency edges must succeed".) -/
def topoSortSucceeds (plan : TaskPlanInput) : Bool :=
  topoAux plan.subtasks.length []
    (plan.subtasks.enum.map (fun pr => (pr.1, pr.2.dependencies.getD [])))

/-- Does some declared dependency index fall outside the plan? -/
def hasOutOfRangeDep (plan : TaskPlanInput) : Bool :=
  plan.subtasks.any (fun st =>
    (st.dependencies.getD []).any (fun d => decide (plan.subtasks.length ≤ d)))

/-- Modelled from the spec: `createTask(goal, plan, sessionId)` of the Task
Store module (`task-manager`, absent from the provided sources; only its
callers are present).  Validates that the plan has at least one subtask,
that every declared dependency index is in range, and that a topological
sort over the declared dependency edges succeeds (else the plan is cyclic);
on success assigns subtask ids deterministically from plan order
(`subtask-1`, `subtask-2`, …, the id scheme of planner.ts), resolves each
dependency index into the corresponding id, and initializes every subtask
to `PENDING`.  Any validation failure is `InvalidPlan`. -/
def mkTask (goal : String) (plan : TaskPlanInput) (sessionId : String) : TMTask :=
  { id := "task-1"
    goal := goal
    summary := plan.summary
    sessionId := sessionId
    subtasks := plan.subtasks.enum.map (fun pr =>
      { id := subtaskIdOf pr.1
        description := pr.2.description
        goal := pr.2.goal
        dependencies := pr.2.dependencies.map (fun ds => ds.map subtaskIdOf)
        status := SubStatus.PENDING })
    status := SubStatus.PENDING }

def createTask (goal : String) (plan : TaskPlanInput) (sessionId : String) :
    Except CreateError TMTask :=
  if plan.subtasks.length < 1 then .error .InvalidPlan
  else if hasOutOfRangeDep plan then .error .InvalidPlan
  else if !(topoSortSucceeds plan) then .error .InvalidPlan
  else .ok (mkTask goal plan sessionId)

/-- The spec's example of a cyclic plan: subtask 0 depends on subtask 1 and
subtask 1 depends on subtask 0. -/
def cyclicPlanExample : TaskPlanInput :=
  { summary := "two mutually dependent subtasks"
    subtasks :=
      [ { description := "first", goal := "first goal", dependencies := some [1] }
      , { description := "second", goal := "second goal", dependencies := some [0] } ] }

/-- **C6** (spec-modelled).  For every plan with at least one subtask whose
declared dependency indices are in range and whose dependency graph admits a
topological sort (the spec's definition of acyclicity), `createTask`
succeeds, assigns subtask ids deterministically from plan order
(`subtask-1`, `subtask-2`, …), resolves each declared dependency index into
the corresponding id, and initializes every subtask (and the task) to
`PENDING`; for every plan with an out-of-range dependency index or a failed
topological sort, and in particular for the spec's concrete two-cycle
example, `createTask` fails with `InvalidPlan` — the cycle check is part of
creation itself. -/
theorem claim_C6_createTask_validation (goal : String) (plan : TaskPlanInput)
    (sessionId : String) :
    (0 < plan.subtasks.length → hasOutOfRangeDep plan = false →
      topoSortSucceeds plan = true →
      ∃ t, createTask goal plan sessionId = Except.ok t ∧
        t.status = SubStatus.PENDING ∧
        t.subtasks.length = plan.subtasks.length ∧
        (∀ i, i < plan.subtasks.length →
          ∃ stIn, plan.subtasks[i]? = some stIn ∧
            t.subtasks[i]? = some
              { id := subtaskIdOf i
                description := stIn.description
                goal := stIn.goal
                dependencies := stIn.dependencies.map (fun ds => ds.map subtaskIdOf)
                status := SubStatus.PENDING })) ∧
    (hasOutOfRangeDep plan = true →
      createTask goal plan sessionId = Except.error CreateError.InvalidPlan) ∧
    (topoSortSucceeds plan = false →
      createTask goal plan sessionId = Except.error CreateError.InvalidPlan) ∧
    createTask goal cyclicPlanExample sessionId = Except.error CreateError.InvalidPlan := by
  refine ⟨?_, ?_, ?_, ?_⟩
  · intro hpos hrange htopo
    refine ⟨mkTask goal plan sessionId, ?_, rfl, ?_, ?_⟩
    · unfold createTask
      rw [if_neg (by omega), if_neg (by rw [hrange]; exact Bool.noConfusion),
        if_neg (by rw [htopo]; exact Bool.noConfusion)]
    · show (plan.subtasks.enum.map _).length = plan.subtasks.length
      rw [List.length_map, List.enum_length]
    · intro i hi
      refine ⟨plan.subtasks[i], by rw [List.getElem?_eq_getElem hi], ?_⟩
      show (plan.subtasks.enum.map _)[i]? = _
      rw [List.getElem?_map]
      rw [List.getElem?_enum]
      rw [List.getElem?_eq_getElem hi]
      rfl
  · intro hrange
    unfold createTask
    by_cases hlen : plan.subtasks.length < 1
    · rw [if_pos hlen]
    · rw [if_neg hlen, if_pos hrange]
  · intro htopo
    unfold createTask
    by_cases hlen : plan.subtasks.length < 1
    · rw [if_pos hlen]
    · rw [if_neg hlen]
      by_cases hrange : hasOutOfRangeDep plan = true
      · rw [if_pos hrange]
      · rw [if_neg hrange, if_pos (by rw [htopo]; rfl)]
  · unfold createTask
    rw [if_neg (by decide), if_neg (by decide), if_pos (by decide)]

/-- Witness for `claim_C6_createTask_validation` on a concrete valid plan
(two subtasks, the second depending on the first). -/
def planW6 : TaskPlanInput :=
  { summary := "open the site, then extract the price"
    subtasks :=
      [ { description := "navigate", goal := "open the site", dependencies := none }
      , { description := "extract", goal := "read the price", dependencies := some [0] } ] }

theorem claim_C6_witness :
    ∃ t, createTask "check price" planW6 "sess-1" = Except.ok t ∧
      t.status = SubStatus.PENDING ∧
      t.subtasks.length = planW6.subtasks.length ∧
      (∀ i, i < planW6.subtasks.length →
        ∃ stIn, planW6.subtasks[i]? = some stIn ∧
          t.subtasks[i]? = some
            { id := subtaskIdOf i
              description := stIn.description
              goal := stIn.goal
              dependencies := stIn.dependencies.map (fun ds => ds.map subtaskIdOf)
              status := SubStatus.PENDING }) :=
  (claim_C6_createTask_validation "check price" planW6 "sess-1").1
    (by decide) (by decide) (by decide)

/-! ### Claim C7: orchestration facade (EXECUTE_WORKER_TASK handler, route.ts)

The handler awaits the Execution Loop, then calls
`TaskManager.updateSubtaskStatus` with the returned status and result; on any
fault (from the loop call or the first update) it force-marks the subtask
`FAILED` with retry count 0 and the fault's message, the force-mark update
being wrapped in its own `try/catch` that only logs.  The update behaviour is
abstract (`upd`, indexed by call number; `some m` means the call raises with
message `m`); the attempted update calls are returned as an observable log. -/

/-- The JSON response of the handler, reduced to the fields the claim is
about. -/
structure ApiResponse where
  httpStatus : Nat
  success : Bool
  errorMsg : Option String
  result : Option WorkerResult
deriving DecidableEq, Repr

/-- The force-mark result of the catch handler: `FAILED`, no steps, the
fault's message, retry count 0 (route.ts). -/
def forceFailedResult (m : String) : WorkerResult :=
  ⟨Status.FAILED, [], none, some m, 0⟩

/-- The 500 response of the catch handler (route.ts). -/
def failureResponse (m : String) : ApiResponse :=
  ⟨500, false, some ("Execute worker task failed: " ++ m), none⟩

/-- `EXECUTE_WORKER_TASK` handler of route.ts: `exec` is the outcome of the
awaited Execution Loop call (`Except.error m` models the call rejecting with
message `m`), `upd` the behaviour of the `updateSubtaskStatus` calls.
Returns the response together with the log of attempted update calls. -/
def handleExecuteWorkerTask (exec : Except String WorkerResult)
    (upd : Nat → Option String) : ApiResponse × List (Status × WorkerResult) :=
  match exec with
  | .ok r =>
    match upd 0 with
    | none => (⟨200, true, none, some r⟩, [(r.status, r)])
    | some m =>
      -- the first update raised: the outer catch force-marks FAILED; a
      -- failure of that second update is swallowed by the inner catch
      (failureResponse m, [(r.status, r), (Status.FAILED, forceFailedResult m)])
  | .error m =>
    -- the Execution Loop call raised: force-mark FAILED (best-effort) and
    -- respond 500 with the fault's message regardless of the update outcome
    (failureResponse m, [(Status.FAILED, forceFailedResult m)])

/-- **C7**.  For every `EXECUTE_WORKER_TASK` request: (1) when the Execution
Loop returns a result `r`, the first `updateSubtaskStatus` call carries
`r.status` and `r`; (2) when the Execution Loop raises with message `m`, the
subtask is force-marked `FAILED` with retry count 0 and the fault's message,
and the handler's response is the 500 failure response for `m` regardless of
the update behaviour `upd` — a failure of that status update is caught (the
response does not depend on `upd`), so the execution outcome is never masked
by the bookkeeping failure; (3) when the loop returns but the first update
raises with `m2`, the catch force-marks `FAILED` (retry count 0) as the
second call and the handler still returns (with the 500 response for `m2`)
rather than escalating further. -/
theorem claim_C7_orchestration_facade (exec : Except String WorkerResult)
    (upd : Nat → Option String) :
    (∀ r, exec = Except.ok r →
      (handleExecuteWorkerTask exec upd).2.head? = some (r.status, r)) ∧
    (∀ m, exec = Except.error m →
      handleExecuteWorkerTask exec upd =
        (failureResponse m, [(Status.FAILED, forceFailedResult m)])) ∧
    (∀ r m2, exec = Except.ok r → upd 0 = some m2 →
      handleExecuteWorkerTask exec upd =
        (failureResponse m2, [(r.status, r), (Status.FAILED, forceFailedResult m2)])) := by
  refine ⟨?_, ?_, ?_⟩
  · intro r he
    subst he
    unfold handleExecuteWorkerTask
    cases upd 0 <;> rfl
  · intro m he
    subst he
    rfl
  · intro r m2 he hu
    subst he
    unfold handleExecuteWorkerTask
    rw [hu]

/-- Witness for `claim_C7_orchestration_facade`: the loop raised
"session lost" and the force-mark update itself raises; the response still
reports the loop's fault. -/
theorem claim_C7_witness :
    handleExecuteWorkerTask (Except.error "session lost") (fun _ => some "store gone") =
      (failureResponse "session lost",
        [(Status.FAILED, forceFailedResult "session lost")]) :=
  (claim_C7_orchestration_facade (Except.error "session lost")
    (fun _ => some "store gone")).2.1 "session lost" rfl

end Director
